import Mathlib

/-!
# FacilityFix user administration functions

A shallow embedding of `functions/index.js`: six callable functions that sit in
front of an identity provider (`admin.auth()`) and a document store
(`admin.firestore()`, collection `users`).

* JavaScript values are the type `JsVal`; numbers are the integers of magnitude at most
  `2^53`, which JavaScript holds exactly (no fractions, no `NaN`, nothing larger); objects
  are association lists in insertion order.
* A callable function is a Lean function from the collaborators' state (`World`),
  the part of their behaviour the source does not determine (`Env`), the argument
  `data` and `context.auth` to an `Outcome` and the new `World`.
* `World.calls` records every call made to a collaborator, with its arguments.
-/

namespace FacilityFix

/-! ## JavaScript values -/

/-- A JavaScript number that is an integer of magnitude at most `2^53`: JavaScript holds
each of them exactly and prints it in decimal digits. -/
structure JsInt where
  val : Int
  inRange : val.natAbs ≤ 9007199254740992

/-- The number nearest to an integer: itself within `2^53`, else the bound of its sign. -/
def JsInt.ofInt (n : Int) : JsInt :=
  if h : n.natAbs ≤ 9007199254740992 then ⟨n, h⟩
  else if n < 0 then ⟨-9007199254740992, by decide⟩
  else ⟨9007199254740992, by decide⟩

instance (n : Nat) : OfNat JsInt n := ⟨JsInt.ofInt n⟩

/-- The sum `n + 1` in JavaScript arithmetic: exact below `2^53`, and `2^53 + 1` rounds
back to `2^53`. -/
def JsInt.addOne (n : JsInt) : JsInt := JsInt.ofInt (n.val + 1)

/-- JavaScript values. `func` stands for a built-in function (named by the text it prints
as) and `serverTimestamp` for the sentinel `admin.firestore.FieldValue.serverTimestamp()`. -/
inductive JsVal where
  | undefined
  | null
  | bool (b : Bool)
  | num (n : JsInt)
  | str (s : String)
  | arr (items : List JsVal)
  | obj (fields : List (String × JsVal))
  | func (name : String)
  | serverTimestamp

/-- The own properties of a JavaScript object, in insertion order. -/
abbrev JsObject := List (String × JsVal)

/-- An error object thrown inside a `try` block, with the three properties the `catch`
blocks read. -/
structure JsError where
  code : JsVal
  message : JsVal
  details : JsVal

/-- JavaScript truthiness (`ToBoolean`): what `!x`, `x || y`, `x && y` and `if (x)` test. -/
def JsVal.truthy : JsVal → Bool
  | .undefined => false
  | .null => false
  | .bool b => b
  | .num n => decide (n.val ≠ 0)
  | .str s => decide (s ≠ "")
  | .arr _ => true
  | .obj _ => true
  | .func _ => true
  | .serverTimestamp => true

/-- The test `v === s` for a string literal `s` (also `includes`, which differs from `===`
only at `NaN`). -/
def JsVal.strictEqStr (v : JsVal) (s : String) : Bool :=
  match v with
  | .str t => decide (t = s)
  | _ => false

/-- `x || y`. -/
def JsVal.or (x y : JsVal) : JsVal := if x.truthy then x else y

/-- An own property `o.k` of an object, `undefined` when there is none. -/
def JsObject.getOwn (o : JsObject) (k : String) : JsVal :=
  match o with
  | [] => .undefined
  | (k', v) :: rest => if k' = k then v else JsObject.getOwn rest k

/-- Whether `k` is an own property of the object. -/
def JsObject.hasOwn (o : JsObject) (k : String) : Bool :=
  match o with
  | [] => false
  | (k', _) :: rest => if k' = k then true else JsObject.hasOwn rest k

/-- The `TypeError` of converting to text an object whose `toString` cannot be called. -/
def toPrimitiveTypeError : JsError :=
  ⟨.undefined, .str "Cannot convert object to primitive value", .undefined⟩

mutual
/-- JavaScript `ToString`, as applied by template literals, by `+` with a string operand
and by the conversion of a value to a property key. It throws a `TypeError` for an object
with an own `toString` property: in a value that came from JSON or from a document such a
property is never a function, and the inherited `valueOf` returns the object itself. -/
def JsVal.toStr : JsVal → Except JsError String
  | .undefined => .ok "undefined"
  | .null => .ok "null"
  | .bool true => .ok "true"
  | .bool false => .ok "false"
  | .num n => .ok (toString n.val)
  | .str s => .ok s
  | .arr items => joinStr items
  | .obj fields =>
    if JsObject.hasOwn fields "toString" then .error toPrimitiveTypeError
    else .ok "[object Object]"
  | .func name => .ok ("function " ++ name ++ "() \x7b [native code] \x7d")
  | .serverTimestamp => .ok "[object Object]"
/-- The text of `Array.prototype.join(",")`: `null` and `undefined` items print as empty. -/
def joinStr : List JsVal → Except JsError String
  | [] => .ok ""
  | x :: xs =>
    match (match x with
      | .undefined => Except.ok ""
      | .null => Except.ok ""
      | _ => JsVal.toStr x) with
    | .error e => .error e
    | .ok head =>
      match xs with
      | [] => .ok head
      | _ =>
        match joinStr xs with
        | .error e => .error e
        | .ok tail => .ok (head ++ "," ++ tail)
end

/-- The text of a template literal with two substitutions: the pieces of text `a`, `b`,
`c` around the conversions of `x` and `y`, made in that order. -/
def template2 (a : String) (x : JsVal) (b : String) (y : JsVal) (c : String) :
    Except JsError String :=
  match x.toStr with
  | .error e => .error e
  | .ok sx =>
    match y.toStr with
    | .error e => .error e
    | .ok sy => .ok (a ++ sx ++ b ++ sy ++ c)

/-- The assignment `o[k] = v` to an object's own data property: an existing property keeps
its place, a new one goes last. -/
def JsObject.set (o : JsObject) (k : String) (v : JsVal) : JsObject :=
  match o with
  | [] => [(k, v)]
  | (k', v') :: rest => if k' = k then (k, v) :: rest else (k', v') :: JsObject.set rest k v

/-- The statement `delete o.k`. -/
def JsObject.delete (o : JsObject) (k : String) : JsObject :=
  o.filter (fun p => decide (p.1 ≠ k))

/-- `Object.keys(o)` of an object: its own property names, each once. -/
def JsObject.keys (o : JsObject) : List String :=
  match o with
  | [] => []
  | (k, _) :: rest => k :: (JsObject.keys rest).filter (fun k' => decide (k' ≠ k))

/-- The spread `{...base, ...o}`: every own property of `o` is assigned onto `base`. -/
def JsObject.spread (base o : JsObject) : JsObject :=
  (JsObject.keys o).foldl (fun acc k => JsObject.set acc k (JsObject.getOwn o k)) base

/-- The properties every plain object inherits from `Object.prototype`. -/
def objectPrototype : JsObject :=
  [ ("constructor", .func "Object"),
    ("__defineGetter__", .func "__defineGetter__"),
    ("__defineSetter__", .func "__defineSetter__"),
    ("hasOwnProperty", .func "hasOwnProperty"),
    ("__lookupGetter__", .func "__lookupGetter__"),
    ("__lookupSetter__", .func "__lookupSetter__"),
    ("isPrototypeOf", .func "isPrototypeOf"),
    ("propertyIsEnumerable", .func "propertyIsEnumerable"),
    ("toString", .func "toString"),
    ("valueOf", .func "valueOf"),
    ("__proto__", .obj []),
    ("toLocaleString", .func "toLocaleString") ]

/-- The read `o[k]` with a computed key on a plain object: the own property, else the one
inherited from `Object.prototype`, else `undefined`. -/
def JsObject.get (o : JsObject) (k : String) : JsVal :=
  if JsObject.hasOwn o k then JsObject.getOwn o k else JsObject.getOwn objectPrototype k

/-- The write `o[k] = v` with a computed key on a plain object, for a primitive `v`:
`__proto__` is an accessor whose setter ignores a primitive; any other key is assigned. -/
def JsObject.put (o : JsObject) (k : String) (v : JsVal) : JsObject :=
  if k = "__proto__" then o else JsObject.set o k v

/-- Whether `const {a, b} = v` can read properties off `v`: it throws a `TypeError` for
`null` and `undefined` only. -/
def JsVal.destructurable : JsVal → Bool
  | .undefined => false
  | .null => false
  | _ => true

/-- The property `v.k` for the names the functions destructure from `data`; none of them
is a property of a string, array, number or boolean, nor of `Object.prototype`. -/
def JsVal.prop (v : JsVal) (k : String) : JsVal :=
  match v with
  | .obj fields => JsObject.getOwn fields k
  | _ => .undefined

/-- `String(i)` for the indices `0 .. n-1`. -/
def indexKeys (n : Nat) : List String := (List.range n).map (fun i => toString i)

/-- `Object.keys(v)` for any value the call does not throw on: the property names of an
object, the indices of an array or of a string, nothing for the other values. -/
def JsVal.objectKeys : JsVal → List String
  | .obj fields => JsObject.keys fields
  | .arr items => indexKeys items.length
  | .str s => indexKeys s.length
  | _ => []

/-- The read `v[k]` for a key `k` taken from `Object.keys(v)`. A string is read character
by character, which is JavaScript's reading for the Basic Multilingual Plane; the index
keys of a string or an array are never among the allowed field names. -/
def JsVal.index (v : JsVal) (k : String) : JsVal :=
  match v with
  | .obj fields => JsObject.getOwn fields k
  | .arr items =>
    match (List.range items.length).find? (fun i => decide (toString i = k)) with
    | some i => items.getD i .undefined
    | none => .undefined
  | .str s =>
    match (List.range s.length).find? (fun i => decide (toString i = k)) with
    | some i => .str (String.mk [s.toList.getD i ' '])
    | none => .undefined
  | _ => .undefined

/-! ## Errors and outcomes -/

/-- The value `new functions.https.HttpsError(code, message, details)`. -/
structure HttpsError where
  code : String
  message : String
  details : JsVal

/-- How a call of a callable function ends: it returns, it throws an `HttpsError`, or an
exception raised outside every `try` block leaves the handler. -/
inductive Outcome (α : Type) where
  | ok (value : α)
  | httpsError (e : HttpsError)
  | uncaught (e : JsError)

/-- The `TypeError` of destructuring `null` or `undefined`. -/
def destructureTypeError : JsError :=
  ⟨.undefined, .str "Cannot destructure property of data as it is undefined.", .undefined⟩

/-- The value `context.auth` when present: the caller's uid and the claims of the token. -/
structure AuthData where
  uid : String
  token : JsObject

/-- The test `context.auth.token.user_role === "admin"`. -/
def AuthData.isAdminToken (a : AuthData) : Bool :=
  (JsObject.getOwn a.token "user_role").strictEqStr "admin"

/-- The guard `!context.auth || context.auth.token.user_role !== "admin"`. -/
def notAdmin (auth : Option AuthData) : Bool :=
  match auth with
  | none => true
  | some a => !a.isAdminToken

/-! ## The collaborators -/

/-- A query on the `users` collection as the source builds it: `orderBy(field)` without a
direction (ascending), the `where(field, "==", value)` filters in the order they are added,
and the argument of `limit`. -/
structure Query where
  orderBy : String
  filters : List (String × JsVal)
  limit : JsVal

/-- An account of the identity provider. -/
structure AuthAccount where
  uid : String
  email : JsVal
  password : JsVal
  displayName : String
  customClaims : JsObject

/-- A call made to a collaborator, with its arguments. -/
inductive Call where
  | createUser (email password : JsVal) (displayName : String)
  | setCustomUserClaims (uid : JsVal) (claims : JsObject)
  | deleteUser (uid : JsVal)
  | docSet (id : JsVal) (fields : JsObject)
  | docUpdate (id : JsVal) (fields : JsObject)
  | batchCommit (deletes : List JsVal)
  | queryGet (q : Query)
  | collectionGet

/-- The state of the two collaborators and the record of the calls made to them. -/
structure World where
  accounts : List AuthAccount
  users : List (String × JsObject)
  calls : List Call

/-- What the source does not determine about the collaborators: the answer of
`createUser`, a failure forced on any other call, and the store's query engine. -/
structure Env where
  createUser : Except JsError String
  setCustomUserClaims : Option JsError
  deleteUser : Option JsError
  docSet : Option JsError
  docUpdate : Option JsError
  batchCommit : Option JsError
  collectionGet : Option JsError
  queryGet : Query → List (String × JsObject) → Except JsError (List (String × JsObject))

/-- The account with a given uid. -/
def World.account (w : World) (uid : String) : Option AuthAccount :=
  w.accounts.find? (fun a => decide (a.uid = uid))

/-- The custom claims of the account with a given uid. -/
def World.claims (w : World) (uid : String) : Option JsObject :=
  (w.account uid).map (fun a => a.customClaims)

/-- The pieces of a path between its slashes, as `path.split("/")` gives them. -/
def pathPieces : List Char → List (List Char)
  | [] => [[]]
  | c :: cs =>
    if c = '/' then [] :: pathPieces cs
    else
      match pathPieces cs with
      | [] => [[c]]
      | p :: ps => (c :: p) :: ps

/-- Whether a path contains `//`. -/
def hasDoubleSlash : List Char → Bool
  | [] => false
  | c :: cs =>
    match cs with
    | [] => false
    | d :: _ => (decide (c = '/') && decide (d = '/')) || hasDoubleSlash cs

/-- The document path below `users` that `doc(s)` refers to, written without a leading or
trailing slash. The SDK refuses the empty string and a path with `//`, drops the empty
pieces, and refuses a path that does not end on a document: below a collection a document
path has an odd number of pieces. -/
def docPath (s : String) : Option String :=
  if s = "" then none
  else if hasDoubleSlash s.toList then none
  else
    let pieces := (pathPieces s.toList).filter (fun p => decide (p ≠ []))
    if pieces.length % 2 = 1 then some (String.mk (List.intercalate ['/'] pieces)) else none

/-- Whether a path names a document of the collection `users` itself: one piece. -/
def isDocId (s : String) : Bool :=
  decide (s ≠ "") && !s.toList.contains '/'

/-- The fields stored under a path below `users`. -/
def World.stored (w : World) (path : String) : Option JsObject :=
  (w.users.find? (fun d => decide (d.1 = path))).map (fun d => d.2)

/-- The document `users/id`, for an `id` written as `doc` reads it; there is no document
at any other string. -/
def World.doc (w : World) (id : String) : Option JsObject :=
  if docPath id = some id then w.stored id else none

/-- The world with one more call on record. -/
def World.log (w : World) (c : Call) : World :=
  { w with calls := w.calls ++ [c] }

/-- The error of the identity provider for an uid that is not a non-empty string. -/
def invalidUidError : JsError :=
  ⟨.str "auth/invalid-uid", .str "The uid must be a non-empty string with at most 128 characters.",
    .undefined⟩

/-- The error of the identity provider for an uid without an account. -/
def userNotFoundError : JsError :=
  ⟨.str "auth/user-not-found",
    .str "There is no user record corresponding to the provided identifier.", .undefined⟩

/-- The error of `doc(id)` for an id that is not the path of a document. -/
def invalidDocPathError : JsError :=
  ⟨.undefined, .str "Value for argument documentPath is not a valid resource path.", .undefined⟩

/-- The error of `update` on a document that does not exist. -/
def noDocumentError : JsError :=
  ⟨.num 5, .str "5 NOT_FOUND: No document to update", .undefined⟩

/-- A value used as uid or document id, when it is a non-empty string. -/
def JsVal.asId : JsVal → Option String
  | .str s => if s = "" then none else some s
  | _ => none

/-- The call `admin.auth().createUser(...)`: the provider answers with a new uid or an error. -/
def authCreateUser (env : Env) (w : World) (email password : JsVal) (displayName : String) :
    Except JsError String × World :=
  let w1 := w.log (.createUser email password displayName)
  match env.createUser with
  | .error e => (.error e, w1)
  | .ok uid =>
    (.ok uid, { w1 with accounts := ⟨uid, email, password, displayName, []⟩ ::
                                      w1.accounts.filter (fun a => decide (a.uid ≠ uid)) })

/-- The call `admin.auth().setCustomUserClaims(uid, claims)`: the claims of the account are
replaced by `claims`. -/
def authSetCustomUserClaims (env : Env) (w : World) (uid : JsVal) (claims : JsObject) :
    Except JsError Unit × World :=
  let w1 := w.log (.setCustomUserClaims uid claims)
  match env.setCustomUserClaims with
  | some e => (.error e, w1)
  | none =>
    match uid.asId with
    | none => (.error invalidUidError, w1)
    | some u =>
      match w1.account u with
      | none => (.error userNotFoundError, w1)
      | some _ =>
        (.ok (), { w1 with accounts := w1.accounts.map (fun a =>
                    if a.uid = u then { a with customClaims := claims } else a) })

/-- The call `admin.auth().deleteUser(uid)`. -/
def authDeleteUser (env : Env) (w : World) (uid : JsVal) : Except JsError Unit × World :=
  let w1 := w.log (.deleteUser uid)
  match env.deleteUser with
  | some e => (.error e, w1)
  | none =>
    match uid.asId with
    | none => (.error invalidUidError, w1)
    | some u =>
      match w1.account u with
      | none => (.error userNotFoundError, w1)
      | some _ =>
        (.ok (), { w1 with accounts := w1.accounts.filter (fun a => decide (a.uid ≠ u)) })

/-- The reference `db.collection("users").doc(id)`: it throws unless `id` is a string
that is the path of a document below `users`. -/
def docRef (id : JsVal) : Except JsError String :=
  match id with
  | .str s =>
    match docPath s with
    | none => .error invalidDocPathError
    | some u => .ok u
  | _ => .error invalidDocPathError

/-- The call `set(fields)` on the document `users/u`: the document is created or replaced. -/
def docSet (env : Env) (w : World) (u : String) (fields : JsObject) :
    Except JsError Unit × World :=
  let w1 := w.log (.docSet (.str u) fields)
  match env.docSet with
  | some e => (.error e, w1)
  | none =>
    (.ok (), { w1 with users := (u, fields) :: w1.users.filter (fun d => decide (d.1 ≠ u)) })

/-- The fields of a document after `update(fields)`: each given field is assigned, the
others are kept. -/
def mergeFields (doc fields : JsObject) : JsObject :=
  JsObject.spread doc fields

/-- The call `update(fields)` on the document `users/u`: the given fields of an existing
document are assigned, the others are kept. -/
def docUpdate (env : Env) (w : World) (u : String) (fields : JsObject) :
    Except JsError Unit × World :=
  let w1 := w.log (.docUpdate (.str u) fields)
  match env.docUpdate with
  | some e => (.error e, w1)
  | none =>
    match w1.stored u with
    | none => (.error noDocumentError, w1)
    | some _ =>
      (.ok (), { w1 with users := w1.users.map (fun d =>
                  if d.1 = u then (d.1, mergeFields d.2 fields) else d) })

/-- The calls `batch.delete(userDocRef); batch.commit()` for the document `users/u`. -/
def batchDeleteCommit (env : Env) (w : World) (u : String) : Except JsError Unit × World :=
  let w1 := w.log (.batchCommit [.str u])
  match env.batchCommit with
  | some e => (.error e, w1)
  | none => (.ok (), { w1 with users := w1.users.filter (fun d => decide (d.1 ≠ u)) })

/-- The call `query.get()`: the store's query engine answers from what is stored below
`users`. -/
def queryGet (env : Env) (w : World) (q : Query) :
    Except JsError (List (String × JsObject)) × World :=
  let w1 := w.log (.queryGet q)
  (env.queryGet q w.users, w1)

/-- The call `db.collection("users").get()`: every document of the collection itself. -/
def collectionGet (env : Env) (w : World) : Except JsError (List (String × JsObject)) × World :=
  let w1 := w.log .collectionGet
  match env.collectionGet with
  | some e => (.error e, w1)
  | none => (.ok (w.users.filter (fun d => isDocId d.1)), w1)

/-! ## createUserWithClaims -/

/-- The value `{uid: uid, message: "..."}` returned by `createUserWithClaims`. -/
structure CreateResult where
  uid : String
  message : String

/-- The value `{success: true, message: "..."}` returned by the mutating functions. -/
structure SuccessResult where
  success : Bool
  message : String

/-- The message of the `HttpsError` that carries the error of the Admin SDK: the template
with `error.code` and `error.message`. -/
def sdkErrorMessage (error : JsError) : Except JsError String :=
  template2 "Firebase Admin SDK error: " error.code " - " error.message ""

/-- The `HttpsError` of kind `internal` thrown by the `catch` blocks that pass the error
of the Admin SDK on. The template is evaluated inside the `catch` block: when it throws,
the `TypeError` leaves the handler. -/
def sdkInternalError (error : JsError) : Except JsError HttpsError :=
  match sdkErrorMessage error with
  | .error e => .error e
  | .ok message => .ok ⟨"internal", message, error.details⟩

/-- How a call ends when its `catch` block has run. -/
def afterCatch {α : Type} (thrown : Except JsError HttpsError) : Outcome α :=
  match thrown with
  | .ok e => .httpsError e
  | .error e => .uncaught e

/-- The first piece of `s.split("@")`: the characters of `s` up to its first `@`, all of
them when it has none. -/
def beforeFirstAt (s : String) : String :=
  String.mk (s.toList.takeWhile (fun c => decide (c ≠ '@')))

/-- The expression `email.split("@")[0]`: defined for a string, a `TypeError` for any
other value. -/
def splitAtHead (email : JsVal) : Except JsError JsVal :=
  match email with
  | .str s => .ok (.str (beforeFirstAt s))
  | _ => .error ⟨.undefined, .str "email.split is not a function", .undefined⟩

/-- The document written by `createUserWithClaims`. -/
def newUserDoc (uid : String) (username email firstName lastName userRole buildingId unitId : JsVal) :
    JsObject :=
  [ ("id", .str uid),
    ("username", username),
    ("email", email),
    ("password_hash", .str "N/A"),
    ("first_name", firstName),
    ("last_name", lastName),
    ("phone_number", .null),
    ("user_role", userRole),
    ("department", .null),
    ("status", .str "active"),
    ("building_id", buildingId.or .null),
    ("unit_id", unitId.or .null),
    ("created_at", .serverTimestamp),
    ("updated_at", .serverTimestamp) ]

/-- The text logged by `createUserWithClaims` after the record is written. -/
def createdLogText (email : JsVal) (uid : String) (userRole : JsVal) : Except JsError String :=
  match email.toStr with
  | .error e => .error e
  | .ok se =>
    match userRole.toStr with
    | .error e => .error e
    | .ok sr => .ok ("User " ++ se ++ " created with UID: " ++ uid ++ " and role: " ++ sr)

/-- The `try` block of `createUserWithClaims`. The two template literals are evaluated
where the source has them: the display name before `createUser` is called, the logged
text after the record is written. -/
def createUserTry (env : Env) (w : World)
    (email password firstName lastName userRole buildingId unitId : JsVal) :
    Except JsError CreateResult × World :=
  match template2 "" firstName " " lastName "" with
  | .error e => (.error e, w)
  | .ok displayName =>
    match authCreateUser env w email password displayName with
    | (.error e, w1) => (.error e, w1)
    | (.ok uid, w1) =>
      match authSetCustomUserClaims env w1 (.str uid) [("user_role", userRole)] with
      | (.error e, w2) => (.error e, w2)
      | (.ok _, w2) =>
        match docRef (.str uid) with
        | .error e => (.error e, w2)
        | .ok u =>
          match splitAtHead email with
          | .error e => (.error e, w2)
          | .ok username =>
            match docSet env w2 u
                (newUserDoc uid username email firstName lastName userRole buildingId unitId) with
            | (.error e, w3) => (.error e, w3)
            | (.ok _, w3) =>
              match createdLogText email uid userRole with
              | .error e => (.error e, w3)
              | .ok _ => (.ok ⟨uid, "User created successfully!"⟩, w3)

/-- The `catch` block of `createUserWithClaims`. -/
def createUserCatch (error : JsError) : Except JsError HttpsError :=
  if error.code.strictEqStr "auth/email-already-in-use" then
    .ok ⟨"already-exists", "The email address is already in use by another account.",
      .undefined⟩
  else if error.code.truthy && error.message.truthy then
    sdkInternalError error
  else
    .ok ⟨"internal", "Failed to create user.", error.message⟩

/-- The callable function `createUserWithClaims`. -/
def createUserWithClaims (env : Env) (w : World) (data : JsVal) (auth : Option AuthData) :
    Outcome CreateResult × World :=
  match auth with
  | none =>
    (.httpsError ⟨"unauthenticated", "The function must be called while authenticated.",
      .undefined⟩, w)
  | some _ =>
    if !data.destructurable then (.uncaught destructureTypeError, w) else
    let email := data.prop "email"
    let password := data.prop "password"
    let firstName := data.prop "firstName"
    let lastName := data.prop "lastName"
    let userRole := data.prop "userRole"
    let buildingId := data.prop "buildingId"
    let unitId := data.prop "unitId"
    if !email.truthy || !password.truthy || !firstName.truthy || !lastName.truthy ||
        !userRole.truthy then
      (.httpsError ⟨"invalid-argument", "Missing required user data.", .undefined⟩, w)
    else
      match createUserTry env w email password firstName lastName userRole buildingId unitId with
      | (.ok r, w1) => (.ok r, w1)
      | (.error e, w1) => (afterCatch (createUserCatch e), w1)

/-! ## setUserRole -/

/-- The array `validRoles`. -/
def validRoles : List String := ["admin", "staff", "tenant"]

/-- The test `validRoles.includes(newRole)`. -/
def validRolesIncludes (newRole : JsVal) : Bool :=
  validRoles.any (fun r => newRole.strictEqStr r)

/-- The `try` block of `setUserRole`, with its two template literals: the logged text
and the message returned. -/
def setUserRoleTry (env : Env) (w : World) (targetUid newRole : JsVal) :
    Except JsError SuccessResult × World :=
  match authSetCustomUserClaims env w targetUid [("user_role", newRole)] with
  | (.error e, w1) => (.error e, w1)
  | (.ok _, w1) =>
    match docRef targetUid with
    | .error e => (.error e, w1)
    | .ok u =>
      match docUpdate env w1 u [("user_role", newRole), ("updated_at", .serverTimestamp)] with
      | (.error e, w2) => (.error e, w2)
      | (.ok _, w2) =>
        match template2 "User " targetUid " role updated to: " newRole "" with
        | .error e => (.error e, w2)
        | .ok _ =>
          match newRole.toStr with
          | .error e => (.error e, w2)
          | .ok role => (.ok ⟨true, "User role updated to " ++ role⟩, w2)

/-- The `catch` block of `setUserRole`. -/
def setUserRoleCatch (error : JsError) : Except JsError HttpsError :=
  if error.code.truthy && error.message.truthy then
    sdkInternalError error
  else
    .ok ⟨"internal", "Failed to set user role.", error.message⟩

/-- The callable function `setUserRole`. -/
def setUserRole (env : Env) (w : World) (data : JsVal) (auth : Option AuthData) :
    Outcome SuccessResult × World :=
  if notAdmin auth then
    (.httpsError ⟨"permission-denied", "Only administrators can set user roles.", .undefined⟩, w)
  else
    if !data.destructurable then (.uncaught destructureTypeError, w) else
    let targetUid := data.prop "targetUid"
    let newRole := data.prop "newRole"
    if !targetUid.truthy || !newRole.truthy then
      (.httpsError ⟨"invalid-argument", "Missing target UID or new role.", .undefined⟩, w)
    else if !validRolesIncludes newRole then
      (.httpsError ⟨"invalid-argument", "Invalid role specified.", .undefined⟩, w)
    else
      match setUserRoleTry env w targetUid newRole with
      | (.ok r, w1) => (.ok r, w1)
      | (.error e, w1) => (afterCatch (setUserRoleCatch e), w1)

/-! ## deleteUserAndData -/

/-- The `try` block of `deleteUserAndData`, with the template literal of its logged
text. -/
def deleteUserTry (env : Env) (w : World) (targetUid : JsVal) :
    Except JsError SuccessResult × World :=
  match authDeleteUser env w targetUid with
  | (.error e, w1) => (.error e, w1)
  | (.ok _, w1) =>
    match docRef targetUid with
    | .error e => (.error e, w1)
    | .ok u =>
      match batchDeleteCommit env w1 u with
      | (.error e, w2) => (.error e, w2)
      | (.ok _, w2) =>
        match targetUid.toStr with
        | .error e => (.error e, w2)
        | .ok _ => (.ok ⟨true, "User and associated data deleted successfully."⟩, w2)

/-- The `catch` block of `deleteUserAndData`. -/
def deleteUserCatch (error : JsError) : Except JsError HttpsError :=
  if error.code.strictEqStr "auth/user-not-found" then
    .ok ⟨"not-found", "User not found.", .undefined⟩
  else if error.code.truthy && error.message.truthy then
    sdkInternalError error
  else
    .ok ⟨"internal", "Failed to delete user.", error.message⟩

/-- The callable function `deleteUserAndData`. -/
def deleteUserAndData (env : Env) (w : World) (data : JsVal) (auth : Option AuthData) :
    Outcome SuccessResult × World :=
  match auth with
  | none =>
    (.httpsError ⟨"permission-denied", "Only administrators can delete user accounts.",
      .undefined⟩, w)
  | some a =>
    if !a.isAdminToken then
      (.httpsError ⟨"permission-denied", "Only administrators can delete user accounts.",
        .undefined⟩, w)
    else
      if !data.destructurable then (.uncaught destructureTypeError, w) else
      let targetUid := data.prop "targetUid"
      if !targetUid.truthy then
        (.httpsError ⟨"invalid-argument", "Missing target UID.", .undefined⟩, w)
      else if targetUid.strictEqStr a.uid then
        (.httpsError ⟨"permission-denied",
          "An administrator cannot delete their own account using this function.",
          .undefined⟩, w)
      else
        match deleteUserTry env w targetUid with
        | (.ok r, w1) => (.ok r, w1)
        | (.error e, w1) => (afterCatch (deleteUserCatch e), w1)

/-! ## getAllUsers -/

/-- The value `{users, count: users.length}` returned by `getAllUsers`. -/
structure UsersResult where
  users : List JsObject
  count : Nat

/-- The destructuring default `limit = 100`: it applies to `undefined` only. -/
def limitOrDefault (limit : JsVal) : JsVal :=
  match limit with
  | .undefined => .num 100
  | v => v

/-- The query built by `getAllUsers`. -/
def usersQuery (buildingId role limit : JsVal) : Query :=
  { orderBy := "first_name",
    filters := (if buildingId.truthy then [("building_id", buildingId)] else []) ++
               (if role.truthy then [("user_role", role)] else []),
    limit := limit }

/-- The body of `snapshot.forEach`: the object pushed onto `users` for one document. -/
def publicUser (doc : String × JsObject) : JsObject :=
  JsObject.spread [("id", .str doc.1)] (JsObject.delete doc.2 "password_hash")

/-- The callable function `getAllUsers`. -/
def getAllUsers (env : Env) (w : World) (data : JsVal) (auth : Option AuthData) :
    Outcome UsersResult × World :=
  if notAdmin auth then
    (.httpsError ⟨"permission-denied", "Only administrators can view all users.", .undefined⟩, w)
  else
    if !data.destructurable then (.uncaught destructureTypeError, w) else
    let buildingId := data.prop "buildingId"
    let role := data.prop "role"
    let limit := limitOrDefault (data.prop "limit")
    match queryGet env w (usersQuery buildingId role limit) with
    | (.ok snapshot, w1) =>
      let users := snapshot.map publicUser
      (.ok ⟨users, users.length⟩, w1)
    | (.error e, w1) =>
      (.httpsError ⟨"internal", "Failed to retrieve users.", e.message⟩, w1)

/-! ## updateUserProfile -/

/-- The array `allowedFields` once the admin fields have been pushed. -/
def allowedFields (isAdmin : Bool) : List String :=
  ["first_name", "last_name", "phone_number", "department", "building_id", "unit_id"] ++
    (if isAdmin then ["user_role", "status"] else [])

/-- The object `filteredUpdateData` when it is passed to `update`: the allowed keys of
`updateData` with their values, then `updated_at`. -/
def filteredUpdateData (isAdmin : Bool) (updateData : JsVal) : JsObject :=
  JsObject.set
    (updateData.objectKeys.foldl
      (fun acc key =>
        if (allowedFields isAdmin).contains key then JsObject.set acc key (updateData.index key)
        else acc)
      [])
    "updated_at" .serverTimestamp

/-- The end of the `try` block of `updateUserProfile`: the template literal of the
logged text, then the value returned. -/
def profileUpdated (w : World) (targetUid : JsVal) : Except JsError SuccessResult × World :=
  match targetUid.toStr with
  | .error e => (.error e, w)
  | .ok _ => (.ok ⟨true, "Profile updated successfully"⟩, w)

/-- The `try` block of `updateUserProfile`. -/
def updateUserProfileTry (env : Env) (w : World) (targetUid updateData : JsVal)
    (isAdmin : Bool) : Except JsError SuccessResult × World :=
  let filtered := filteredUpdateData isAdmin updateData
  match docRef targetUid with
  | .error e => (.error e, w)
  | .ok u =>
    match docUpdate env w u filtered with
    | (.error e, w1) => (.error e, w1)
    | (.ok _, w1) =>
      if (JsObject.getOwn filtered "user_role").truthy && isAdmin then
        match authSetCustomUserClaims env w1 targetUid
            [("user_role", JsObject.getOwn filtered "user_role")] with
        | (.error e, w2) => (.error e, w2)
        | (.ok _, w2) => profileUpdated w2 targetUid
      else
        profileUpdated w1 targetUid

/-- The callable function `updateUserProfile`. -/
def updateUserProfile (env : Env) (w : World) (data : JsVal) (auth : Option AuthData) :
    Outcome SuccessResult × World :=
  match auth with
  | none =>
    (.httpsError ⟨"unauthenticated", "The function must be called while authenticated.",
      .undefined⟩, w)
  | some a =>
    if !data.destructurable then (.uncaught destructureTypeError, w) else
    let targetUid := data.prop "targetUid"
    let updateData := data.prop "updateData"
    if !targetUid.truthy || !updateData.truthy then
      (.httpsError ⟨"invalid-argument", "Missing target UID or update data.", .undefined⟩, w)
    else
      let isAdmin := a.isAdminToken
      let isSelfUpdate := targetUid.strictEqStr a.uid
      if !isAdmin && !isSelfUpdate then
        (.httpsError ⟨"permission-denied",
          "You can only update your own profile or be an admin.", .undefined⟩, w)
      else
        match updateUserProfileTry env w targetUid updateData isAdmin with
        | (.ok r, w1) => (.ok r, w1)
        | (.error e, w1) =>
          (.httpsError ⟨"internal", "Failed to update user profile.", e.message⟩, w1)

/-! ## getUserStatistics -/

/-- The object `stats`. -/
structure Stats where
  total : Nat
  byRole : JsObject
  byStatus : JsObject
  byBuilding : JsObject

/-- The expression `(x || 0) + 1`: a number is incremented; for any other truthy value
`+` concatenates its text with `"1"`, and throws where the conversion to text does. -/
def orZeroPlusOne (x : JsVal) : Except JsError JsVal :=
  if !x.truthy then .ok (.num 1)
  else
    match x with
    | .num n => .ok (.num n.addOne)
    | .bool _ => .ok (.num 2)
    | v =>
      match v.toStr with
      | .error e => .error e
      | .ok s => .ok (.str (s ++ "1"))

/-- The statement `bucket[v] = (bucket[v] || 0) + 1`, where the value `v` is converted to
a property key. -/
def increment (bucket : JsObject) (v : JsVal) : Except JsError JsObject :=
  match v.toStr with
  | .error e => .error e
  | .ok key =>
    match orZeroPlusOne (JsObject.get bucket key) with
    | .error e => .error e
    | .ok n => .ok (JsObject.put bucket key n)

/-- One of the three `if (userData.field) { bucket[userData.field] = ... }` statements. -/
def countField (bucket : JsObject) (userData : JsObject) (field : String) :
    Except JsError JsObject :=
  if (JsObject.getOwn userData field).truthy then increment bucket (JsObject.getOwn userData field)
  else .ok bucket

/-- The body of `usersSnapshot.forEach`. -/
def statsStep (stats : Stats) (userData : JsObject) : Except JsError Stats :=
  match countField stats.byRole userData "user_role" with
  | .error e => .error e
  | .ok byRole =>
    match countField stats.byStatus userData "status" with
    | .error e => .error e
    | .ok byStatus =>
      match countField stats.byBuilding userData "building_id" with
      | .error e => .error e
      | .ok byBuilding =>
        .ok { total := stats.total + 1, byRole := byRole, byStatus := byStatus,
              byBuilding := byBuilding }

/-- The initial value of `stats`. -/
def initialStats : Stats :=
  { total := 0,
    byRole := [("admin", .num 0), ("staff", .num 0), ("tenant", .num 0)],
    byStatus := [("active", .num 0), ("suspended", .num 0)],
    byBuilding := [] }

/-- The loop `usersSnapshot.forEach` from a given value of `stats`: it stops at the first
document whose callback throws. -/
def statsLoop : List (String × JsObject) → Stats → Except JsError Stats
  | [], stats => .ok stats
  | doc :: rest, stats =>
    match statsStep stats doc.2 with
    | .error e => .error e
    | .ok next => statsLoop rest next

/-- The value of `stats` after `usersSnapshot.forEach`. -/
def computeStats (snapshot : List (String × JsObject)) : Except JsError Stats :=
  statsLoop snapshot initialStats

/-- The callable function `getUserStatistics`. -/
def getUserStatistics (env : Env) (w : World) (_data : JsVal) (auth : Option AuthData) :
    Outcome Stats × World :=
  if notAdmin auth then
    (.httpsError ⟨"permission-denied", "Only administrators can view user statistics.",
      .undefined⟩, w)
  else
    match collectionGet env w with
    | (.ok usersSnapshot, w1) =>
      match computeStats usersSnapshot with
      | .ok stats => (.ok stats, w1)
      | .error e =>
        (.httpsError ⟨"internal", "Failed to retrieve user statistics.", e.message⟩, w1)
    | (.error e, w1) =>
      (.httpsError ⟨"internal", "Failed to retrieve user statistics.", e.message⟩, w1)

/-! ## Sample collaborators and callers -/

/-- Collaborators that fail no call: the provider hands out the uid `"u9"`; the query
engine serves a collection kept in `first_name` order and filters on string values: it
answers with the documents that pass every filter, as many as `limit` allows. -/
def quietEnv : Env :=
  { createUser := .ok "u9",
    setCustomUserClaims := none,
    deleteUser := none,
    docSet := none,
    docUpdate := none,
    batchCommit := none,
    collectionGet := none,
    queryGet := fun q docs =>
      match q.limit with
      | .num n =>
        .ok ((docs.filter (fun d => q.filters.all (fun f =>
          match f.2 with
          | .str s => (JsObject.getOwn d.2 f.1).strictEqStr s
          | _ => false))).take n.val.toNat)
      | _ => .error ⟨.undefined, .str "Value for argument limit is not a valid integer.",
          .undefined⟩ }

/-- A world with an admin `"u1"` and a tenant `"u2"`, each with an account and a record. -/
def sampleWorld : World :=
  { accounts :=
      [ ⟨"u1", .str "ada@x.org", .str "pw-ada", "Ada Root", [("user_role", .str "admin")]⟩,
        ⟨"u2", .str "tom@x.org", .str "pw-tom", "Tom Flat", [("user_role", .str "tenant")]⟩ ],
    users :=
      [ ("u1", [("id", .str "u1"), ("first_name", .str "Ada"), ("password_hash", .str "N/A"),
                ("user_role", .str "admin"), ("status", .str "active")]),
        ("u2", [("id", .str "u2"), ("first_name", .str "Tom"), ("password_hash", .str "N/A"),
                ("user_role", .str "tenant"), ("status", .str "active"),
                ("building_id", .str "b7")]) ],
    calls := [] }

/-- The caller `"u1"`, whose token carries `user_role = "admin"`. -/
def adminCaller : AuthData := ⟨"u1", [("user_role", .str "admin")]⟩

/-- The caller `"u2"`, whose token carries `user_role = "tenant"`. -/
def tenantCaller : AuthData := ⟨"u2", [("user_role", .str "tenant")]⟩

/-- The collaborators of `quietEnv`, except that the provider refuses `createUser` as the
Admin SDK does for an e-mail that has an account: with the code
`auth/email-already-exists`. -/
def emailExistsEnv : Env :=
  { quietEnv with
    createUser := .error ⟨.str "auth/email-already-exists",
      .str "The email address is already in use by another account.", .undefined⟩ }

/-- An argument of `createUserWithClaims` with every required field. -/
def newTenantData : JsVal :=
  .obj [("email", .str "a@b.com"), ("password", .str "secret9"), ("firstName", .str "Al"),
    ("lastName", .str "Bo"), ("userRole", .str "tenant"), ("buildingId", .str "b7")]

/-- A record with the given role and status. -/
def roleRecord (id role status : String) : String × JsObject :=
  (id, [("id", .str id), ("user_role", .str role), ("status", .str status)])

/-- A world whose store holds three admins, two members of staff and a suspended tenant. -/
def sixUsersWorld : World :=
  { accounts := [],
    users :=
      [ roleRecord "a1" "admin" "active", roleRecord "a2" "admin" "active",
        roleRecord "a3" "admin" "active", roleRecord "s1" "staff" "active",
        roleRecord "s2" "staff" "active", roleRecord "t1" "tenant" "suspended" ],
    calls := [] }

/-- A world whose store holds one record, with the role `"constructor"` and the building
id `"valueOf"`. -/
def constructorRoleWorld : World :=
  { accounts := [],
    users :=
      [ ("c1", [("id", .str "c1"), ("user_role", .str "constructor"),
                ("status", .str "active"), ("building_id", .str "valueOf")]) ],
    calls := [] }

/-- Whether a value converts to the property key `r`. -/
def convertsTo (v : JsVal) (r : String) : Bool :=
  match v.toStr with
  | .ok s => decide (s = r)
  | .error _ => false

/-- The number of documents whose field `field` is truthy and converts to the key `r`. -/
def countKey (snapshot : List (String × JsObject)) (field r : String) : Nat :=
  (snapshot.filter (fun d =>
    (JsObject.getOwn d.2 field).truthy && convertsTo (JsObject.getOwn d.2 field) r)).length

/-- The loop `usersSnapshot.forEach` as one bucket sees it. -/
def bucketLoop (field : String) : List (String × JsObject) → JsObject → Except JsError JsObject
  | [], bucket => .ok bucket
  | doc :: rest, bucket =>
    match countField bucket doc.2 field with
    | .error e => .error e
    | .ok next => bucketLoop field rest next

/-- A bucket holds the count `m` at the key `r`: as the number `m`, or, when `m` is 0,
also by having no such property. -/
def HoldsCount (bucket : JsObject) (r : String) (m : Nat) : Prop :=
  (JsObject.hasOwn bucket r = true ∧ JsObject.getOwn bucket r = .num (JsInt.ofInt m)) ∨
  (JsObject.hasOwn bucket r = false ∧ m = 0)

/-! # Theorems -/

/-! ## Lemmas on JavaScript values -/

theorem strictEqStr_eq_true_iff (v : JsVal) (s : String) :
    v.strictEqStr s = true ↔ v = .str s := by
  cases v <;> simp [JsVal.strictEqStr]

theorem strictEqStr_eq_false_iff (v : JsVal) (s : String) :
    v.strictEqStr s = false ↔ v ≠ .str s := by
  cases v <;> simp [JsVal.strictEqStr]

theorem notAdmin_of_not_admin_claim (auth : Option AuthData)
    (h : auth = none ∨ ∃ a, auth = some a ∧ JsObject.getOwn a.token "user_role" ≠ .str "admin") :
    notAdmin auth = true := by
  rcases h with h | ⟨a, h, hne⟩
  · subst h; rfl
  · subst h
    simp [notAdmin, AuthData.isAdminToken, strictEqStr_eq_false_iff, hne]

/-- C1: each of the four role-gated functions, called without `context.auth` or with a
token whose `user_role` is not the string `"admin"`, throws `permission-denied` whatever
the argument, and leaves the collaborators as they were, no call made. -/
theorem role_gate_denies_without_admin (env : Env) (w : World) (data : JsVal)
    (auth : Option AuthData)
    (h : auth = none ∨ ∃ a, auth = some a ∧ JsObject.getOwn a.token "user_role" ≠ .str "admin") :
    setUserRole env w data auth =
      (.httpsError ⟨"permission-denied", "Only administrators can set user roles.",
        .undefined⟩, w) ∧
    deleteUserAndData env w data auth =
      (.httpsError ⟨"permission-denied", "Only administrators can delete user accounts.",
        .undefined⟩, w) ∧
    getAllUsers env w data auth =
      (.httpsError ⟨"permission-denied", "Only administrators can view all users.",
        .undefined⟩, w) ∧
    getUserStatistics env w data auth =
      (.httpsError ⟨"permission-denied", "Only administrators can view user statistics.",
        .undefined⟩, w) := by
  have hn := notAdmin_of_not_admin_claim auth h
  refine ⟨?_, ?_, ?_, ?_⟩
  · simp [setUserRole, hn]
  · cases auth with
    | none => rfl
    | some a =>
      have : a.isAdminToken = false := by simpa [notAdmin] using hn
      simp [deleteUserAndData, this]
  · simp [getAllUsers, hn]
  · simp [getUserStatistics, hn]

/-- Witness of C1: the tenant `"u2"` asks for the role of `"u2"` to become `"admin"`. -/
theorem role_gate_denies_without_admin_witness :
    setUserRole quietEnv sampleWorld
        (.obj [("targetUid", .str "u2"), ("newRole", .str "admin")]) (some tenantCaller) =
      (.httpsError ⟨"permission-denied", "Only administrators can set user roles.",
        .undefined⟩, sampleWorld) :=
  (role_gate_denies_without_admin quietEnv sampleWorld
    (.obj [("targetUid", .str "u2"), ("newRole", .str "admin")]) (some tenantCaller)
    (Or.inr ⟨tenantCaller, rfl, by simp [tenantCaller, JsObject.getOwn]⟩)).1

/-- C4: `deleteUserAndData` called by any caller, admin or not, with a non-empty
`targetUid` equal to the caller's own uid throws `permission-denied` and leaves the
collaborators as they were: no account and no record is deleted, no call is made. -/
theorem delete_own_account_denied (env : Env) (w : World) (data : JsVal) (a : AuthData)
    (hne : a.uid ≠ "") (hself : data.prop "targetUid" = .str a.uid) :
    ∃ m, deleteUserAndData env w data (some a) =
      (.httpsError ⟨"permission-denied", m, .undefined⟩, w) := by
  have hd : data.destructurable = true := by
    cases data <;> simp_all [JsVal.prop, JsVal.destructurable]
  cases hadm : a.isAdminToken with
  | false =>
    exact ⟨"Only administrators can delete user accounts.", by simp [deleteUserAndData, hadm]⟩
  | true =>
    exact ⟨"An administrator cannot delete their own account using this function.",
      by simp [deleteUserAndData, hadm, hd, hself, JsVal.truthy, JsVal.strictEqStr, hne]⟩

/-- Witness of C4: the admin `"u1"` asks for the deletion of `"u1"`. -/
theorem delete_own_account_denied_witness :
    ∃ m, deleteUserAndData quietEnv sampleWorld (.obj [("targetUid", .str "u1")])
        (some adminCaller) =
      (.httpsError ⟨"permission-denied", m, .undefined⟩, sampleWorld) :=
  delete_own_account_denied quietEnv sampleWorld (.obj [("targetUid", .str "u1")]) adminCaller
    (by decide) (by rfl)

/-- C5: `createUserWithClaims` without `context.auth` throws `unauthenticated` whatever
the argument; with `context.auth`, an argument object in which one of `email`,
`password`, `firstName`, `lastName`, `userRole` is missing or empty (falsy) makes it throw
`invalid-argument`. In both cases the collaborators are left as they were, no call made. -/
theorem create_validates_before_collaborators (env : Env) (w : World) (data : JsVal) :
    createUserWithClaims env w data none =
      (.httpsError ⟨"unauthenticated", "The function must be called while authenticated.",
        .undefined⟩, w) ∧
    ∀ a : AuthData, data.destructurable = true →
      ((data.prop "email").truthy = false ∨ (data.prop "password").truthy = false ∨
        (data.prop "firstName").truthy = false ∨ (data.prop "lastName").truthy = false ∨
        (data.prop "userRole").truthy = false) →
      createUserWithClaims env w data (some a) =
        (.httpsError ⟨"invalid-argument", "Missing required user data.", .undefined⟩, w) := by
  refine ⟨rfl, ?_⟩
  intro a hd h
  have hcond : (!(data.prop "email").truthy || !(data.prop "password").truthy ||
      !(data.prop "firstName").truthy || !(data.prop "lastName").truthy ||
      !(data.prop "userRole").truthy) = true := by
    rcases h with h | h | h | h | h <;> simp [h]
  simp only [createUserWithClaims, hd, hcond]
  simp

/-- Witness of C5: an authenticated call whose argument has no `password`. -/
theorem create_validates_before_collaborators_witness :
    createUserWithClaims quietEnv sampleWorld
        (.obj [("email", .str "a@b.com"), ("firstName", .str "A"), ("lastName", .str "B"),
          ("userRole", .str "tenant")]) (some tenantCaller) =
      (.httpsError ⟨"invalid-argument", "Missing required user data.", .undefined⟩,
        sampleWorld) :=
  (create_validates_before_collaborators quietEnv sampleWorld
    (.obj [("email", .str "a@b.com"), ("firstName", .str "A"), ("lastName", .str "B"),
      ("userRole", .str "tenant")])).2 tenantCaller (by rfl) (by decide)

/-! ## Lemmas on objects -/

theorem getOwn_set (o : JsObject) (k : String) (v : JsVal) (k' : String) :
    JsObject.getOwn (JsObject.set o k v) k' = if k = k' then v else JsObject.getOwn o k' := by
  induction o with
  | nil => simp [JsObject.set, JsObject.getOwn]
  | cons p rest ih =>
    obtain ⟨k0, v0⟩ := p
    by_cases h0 : k0 = k
    · subst h0
      by_cases h1 : k0 = k' <;> simp [JsObject.set, JsObject.getOwn, h1]
    · by_cases h1 : k0 = k'
      · subst h1
        have : ¬ k = k0 := fun h => h0 h.symm
        simp [JsObject.set, JsObject.getOwn, h0, this]
      · simp [JsObject.set, JsObject.getOwn, h0, h1, ih]

theorem hasOwn_set (o : JsObject) (k : String) (v : JsVal) (k' : String) :
    JsObject.hasOwn (JsObject.set o k v) k' = (decide (k = k') || JsObject.hasOwn o k') := by
  induction o with
  | nil => simp [JsObject.set, JsObject.hasOwn]
  | cons p rest ih =>
    obtain ⟨k0, v0⟩ := p
    by_cases h0 : k0 = k
    · subst h0
      by_cases h1 : k0 = k' <;> simp [JsObject.set, JsObject.hasOwn, h1]
    · by_cases h1 : k0 = k'
      · subst h1
        simp [JsObject.set, JsObject.hasOwn, h0]
      · simp [JsObject.set, JsObject.hasOwn, h0, h1, ih]

theorem mem_keys_iff (o : JsObject) (k : String) :
    k ∈ JsObject.keys o ↔ JsObject.hasOwn o k = true := by
  induction o with
  | nil => simp [JsObject.keys, JsObject.hasOwn]
  | cons p rest ih =>
    obtain ⟨k0, v0⟩ := p
    by_cases h : k0 = k
    · subst h
      simp [JsObject.keys, JsObject.hasOwn]
    · have h' : ¬ k = k0 := fun e => h e.symm
      simp [JsObject.keys, JsObject.hasOwn, h, h', ih]

theorem getOwn_foldl_set (g : String → JsVal) (ks : List String) (base : JsObject)
    (k : String) :
    JsObject.getOwn (ks.foldl (fun acc key => JsObject.set acc key (g key)) base) k =
      if k ∈ ks then g k else JsObject.getOwn base k := by
  induction ks generalizing base with
  | nil => simp
  | cons key rest ih =>
    simp only [List.foldl_cons, ih, getOwn_set, List.mem_cons]
    by_cases h1 : k ∈ rest
    · simp [h1]
    · by_cases h2 : key = k
      · subst h2; simp
      · have : ¬ k = key := fun e => h2 e.symm
        simp [h1, h2, this]

theorem hasOwn_foldl_set (g : String → JsVal) (ks : List String) (base : JsObject)
    (k : String) :
    JsObject.hasOwn (ks.foldl (fun acc key => JsObject.set acc key (g key)) base) k =
      (decide (k ∈ ks) || JsObject.hasOwn base k) := by
  induction ks generalizing base with
  | nil => simp
  | cons key rest ih =>
    simp only [List.foldl_cons, ih, hasOwn_set, List.mem_cons]
    by_cases h1 : k ∈ rest
    · simp [h1]
    · by_cases h2 : key = k
      · subst h2; simp
      · have : ¬ k = key := fun e => h2 e.symm
        simp [h1, h2, this]

theorem getOwn_spread (base o : JsObject) (k : String) :
    JsObject.getOwn (JsObject.spread base o) k =
      if JsObject.hasOwn o k then JsObject.getOwn o k else JsObject.getOwn base k := by
  unfold JsObject.spread
  rw [getOwn_foldl_set (fun key => JsObject.getOwn o key)]
  by_cases h : JsObject.hasOwn o k = true
  · simp [h, (mem_keys_iff o k).2 h]
  · have : k ∉ JsObject.keys o := fun hm => h ((mem_keys_iff o k).1 hm)
    simp [h, this]

theorem hasOwn_spread (base o : JsObject) (k : String) :
    JsObject.hasOwn (JsObject.spread base o) k =
      (JsObject.hasOwn o k || JsObject.hasOwn base k) := by
  unfold JsObject.spread
  rw [hasOwn_foldl_set (fun key => JsObject.getOwn o key)]
  by_cases h : JsObject.hasOwn o k = true
  · simp [h, (mem_keys_iff o k).2 h]
  · have : k ∉ JsObject.keys o := fun hm => h ((mem_keys_iff o k).1 hm)
    simp [h, this]

theorem getOwn_delete (o : JsObject) (k k' : String) :
    JsObject.getOwn (JsObject.delete o k) k' =
      if k' = k then .undefined else JsObject.getOwn o k' := by
  induction o with
  | nil => simp [JsObject.delete, JsObject.getOwn]
  | cons p rest ih =>
    obtain ⟨k0, v0⟩ := p
    simp only [JsObject.delete] at ih ⊢
    by_cases h0 : k0 = k
    · subst h0
      rw [List.filter_cons_of_neg (by simp), ih]
      by_cases h1 : k' = k0
      · simp [h1]
      · have : ¬ k0 = k' := fun e => h1 e.symm
        simp [JsObject.getOwn, h1, this]
    · rw [List.filter_cons_of_pos (by simp [h0])]
      by_cases h1 : k0 = k'
      · subst h1; simp [JsObject.getOwn, h0]
      · simp only [JsObject.getOwn, h1, if_false, ih]

theorem hasOwn_delete (o : JsObject) (k k' : String) :
    JsObject.hasOwn (JsObject.delete o k) k' =
      (decide (k' ≠ k) && JsObject.hasOwn o k') := by
  induction o with
  | nil => simp [JsObject.delete, JsObject.hasOwn]
  | cons p rest ih =>
    obtain ⟨k0, v0⟩ := p
    simp only [JsObject.delete] at ih ⊢
    by_cases h0 : k0 = k
    · subst h0
      rw [List.filter_cons_of_neg (by simp), ih]
      by_cases h1 : k' = k0
      · simp [h1]
      · have : ¬ k0 = k' := fun e => h1 e.symm
        simp [JsObject.hasOwn, h1, this]
    · rw [List.filter_cons_of_pos (by simp [h0])]
      by_cases h1 : k0 = k'
      · subst h1; simp [JsObject.hasOwn, h0]
      · simp only [JsObject.hasOwn, h1, if_false, ih]

/-! ## Lemmas on the collaborators -/

theorem account_log (w : World) (c : Call) (u : String) : (w.log c).account u = w.account u := rfl

theorem stored_log (w : World) (c : Call) (u : String) : (w.log c).stored u = w.stored u :=
  rfl

theorem doc_eq_stored (w : World) (t : String) (h : docPath t = some t) :
    w.doc t = w.stored t := by
  simp [World.doc, h]

theorem doc_some (w : World) (t : String) (doc : JsObject) (h : w.doc t = some doc) :
    docPath t = some t ∧ w.stored t = some doc := by
  unfold World.doc at h
  split at h
  · exact ⟨by assumption, h⟩
  · exact absurd h (by simp)

theorem doc_of_users (w w1 : World) (h : w1.users = w.users) (t : String) :
    w1.doc t = w.doc t := by
  simp only [World.doc, World.stored, h]

theorem docRef_str (t : String) (h : docPath t = some t) : docRef (.str t) = .ok t := by
  simp [docRef, h]

theorem docPath_ne_empty (t : String) (h : docPath t = some t) : t ≠ "" := by
  intro e
  subst e
  simp [docPath] at h

theorem asId_str (t : String) (ht : t ≠ "") : (JsVal.str t).asId = some t := by
  simp [JsVal.asId, ht]

/-- A call of `setCustomUserClaims` that is not made to fail, for an existing account:
the claims of that account become `claims`, every other account and the store are kept. -/
theorem setCustomUserClaims_ok (env : Env) (w : World) (t : String) (claims : JsObject)
    (henv : env.setCustomUserClaims = none) (ht : t ≠ "") (hacc : (w.account t).isSome = true) :
    ∃ w1, authSetCustomUserClaims env w (.str t) claims = (.ok (), w1) ∧
      w1.claims t = some claims ∧ (∀ u, u ≠ t → w1.claims u = w.claims u) ∧
      (∀ u, (w1.account u).isSome = (w.account u).isSome) ∧
      w1.users = w.users ∧
      w1.calls = w.calls ++ [.setCustomUserClaims (.str t) claims] := by
  obtain ⟨acc, hacc'⟩ := Option.isSome_iff_exists.1 hacc
  have hfind : ∀ u, (List.map (fun a : AuthAccount =>
        if a.uid = t then { a with customClaims := claims } else a) w.accounts).find?
        (fun a => decide (a.uid = u)) =
      (w.accounts.find? (fun a => decide (a.uid = u))).map (fun a : AuthAccount =>
        if a.uid = t then { a with customClaims := claims } else a) := by
    intro u
    rw [List.find?_map]
    have hcomp : ((fun a : AuthAccount => decide (a.uid = u)) ∘ fun a : AuthAccount =>
        if a.uid = t then { a with customClaims := claims } else a) =
        fun a : AuthAccount => decide (a.uid = u) := by
      funext a
      by_cases h : a.uid = t <;> simp [h]
    rw [hcomp]
  refine ⟨{ w.log (.setCustomUserClaims (.str t) claims) with
      accounts := w.accounts.map (fun a =>
        if a.uid = t then { a with customClaims := claims } else a) }, ?_, ?_, ?_, ?_, ?_, ?_⟩
  · simp only [authSetCustomUserClaims, henv, asId_str t ht, account_log, hacc']
    rfl
  · have hu : acc.uid = t := by
      have := List.find?_some hacc'
      simpa using this
    simp only [World.claims, World.account, World.log, hfind]
    simp only [World.account] at hacc'
    simp [hacc', hu]
  · intro u hu
    simp only [World.claims, World.account, World.log, hfind]
    cases hf : w.accounts.find? (fun a => decide (a.uid = u)) with
    | none => rfl
    | some b =>
      have hb : b.uid = u := by
        have := List.find?_some hf
        simpa using this
      have : ¬ b.uid = t := by rw [hb]; exact hu
      simp [this]
  · intro u
    simp only [World.account, World.log, hfind]
    cases w.accounts.find? (fun a => decide (a.uid = u)) <;> rfl
  · rfl
  · rfl

/-- A call of `update` that is not made to fail, on an existing document: the given
fields are assigned in that document, every other document and the provider are kept. -/
theorem docUpdate_ok (env : Env) (w : World) (t : String) (fields doc : JsObject)
    (henv : env.docUpdate = none) (hdoc : w.stored t = some doc) :
    ∃ w1, docUpdate env w t fields = (.ok (), w1) ∧
      w1.stored t = some (mergeFields doc fields) ∧
      (∀ u, u ≠ t → w1.stored u = w.stored u) ∧
      w1.accounts = w.accounts ∧
      w1.calls = w.calls ++ [.docUpdate (.str t) fields] := by
  have hfind : ∀ u, (List.map (fun d : String × JsObject =>
        if d.1 = t then (d.1, mergeFields d.2 fields) else d) w.users).find?
        (fun d => decide (d.1 = u)) =
      (w.users.find? (fun d => decide (d.1 = u))).map (fun d : String × JsObject =>
        if d.1 = t then (d.1, mergeFields d.2 fields) else d) := by
    intro u
    rw [List.find?_map]
    have hcomp : ((fun d : String × JsObject => decide (d.1 = u)) ∘ fun d : String × JsObject =>
        if d.1 = t then (d.1, mergeFields d.2 fields) else d) =
        fun d : String × JsObject => decide (d.1 = u) := by
      funext d
      by_cases h : d.1 = t <;> simp [h]
    rw [hcomp]
  refine ⟨{ w.log (.docUpdate (.str t) fields) with
      users := w.users.map (fun d =>
        if d.1 = t then (d.1, mergeFields d.2 fields) else d) }, ?_, ?_, ?_, ?_, ?_⟩
  · simp only [docUpdate, henv, stored_log, hdoc]
    rfl
  · simp only [World.stored, World.log, hfind]
    simp only [World.stored] at hdoc
    cases hf : w.users.find? (fun d => decide (d.1 = t)) with
    | none => simp [hf] at hdoc
    | some d =>
      have hd : d.1 = t := by
        have := List.find?_some hf
        simpa using this
      simp [hf] at hdoc
      simp [hd, hdoc]
  · intro u hu
    simp only [World.stored, World.log, hfind]
    cases hf : w.users.find? (fun d => decide (d.1 = u)) with
    | none => rfl
    | some d =>
      have hd : d.1 = u := by
        have := List.find?_some hf
        simpa using this
      have : ¬ d.1 = t := by rw [hd]; exact hu
      simp [this]
  · rfl
  · rfl

/-- The same call of `update`, read through `doc`: the record of `t` holds the merged
fields and every other record is kept. -/
theorem docUpdate_doc (env : Env) (w : World) (t : String) (fields doc : JsObject)
    (henv : env.docUpdate = none) (hdoc : w.doc t = some doc) :
    ∃ w1, docUpdate env w t fields = (.ok (), w1) ∧
      w1.doc t = some (mergeFields doc fields) ∧ (∀ u, u ≠ t → w1.doc u = w.doc u) ∧
      w1.accounts = w.accounts ∧
      w1.calls = w.calls ++ [.docUpdate (.str t) fields] := by
  obtain ⟨hp, hs⟩ := doc_some w t doc hdoc
  obtain ⟨w1, h1, h2, h3, h4, h5⟩ := docUpdate_ok env w t fields doc henv hs
  refine ⟨w1, h1, ?_, ?_, h4, h5⟩
  · rw [doc_eq_stored w1 t hp]
    exact h2
  · intro u hu
    unfold World.doc
    split
    · exact h3 u hu
    · rfl

theorem validRolesIncludes_iff (v : JsVal) :
    validRolesIncludes v = true ↔ ∃ r, r ∈ validRoles ∧ v = .str r := by
  simp [validRolesIncludes, validRoles, strictEqStr_eq_true_iff]

theorem prop_destructurable (data : JsVal) (k : String) (h : (data.prop k).truthy = true) :
    data.destructurable = true := by
  cases data <;> simp_all [JsVal.prop, JsVal.destructurable, JsVal.truthy]

/-- C10: `setUserRole` called by an admin. If `targetUid` or `newRole` is missing or empty
(falsy), or `newRole` is not one of `admin`, `staff`, `tenant`, it throws
`invalid-argument` and leaves the collaborators as they were. Otherwise, when no
collaborator call fails (none is made to fail, the target has an account and a record), it
returns success, the target's `user_role` claim and the record's `user_role` both equal
`newRole`, which is one of the three roles, and in the record only `user_role` and
`updated_at` are assigned; the other records are kept. -/
theorem setUserRole_admin (env : Env) (w : World) (data : JsVal) (a : AuthData)
    (hadmin : JsObject.getOwn a.token "user_role" = .str "admin") :
    (data.destructurable = true →
      ((data.prop "targetUid").truthy = false ∨ (data.prop "newRole").truthy = false ∨
        ∀ r, r ∈ validRoles → data.prop "newRole" ≠ .str r) →
      ∃ m, setUserRole env w data (some a) =
        (.httpsError ⟨"invalid-argument", m, .undefined⟩, w)) ∧
    (∀ (t r : String) (doc : JsObject),
      data.prop "targetUid" = .str t → t ≠ "" → data.prop "newRole" = .str r →
      r ∈ validRoles →
      env.setCustomUserClaims = none → env.docUpdate = none →
      (w.account t).isSome = true → w.doc t = some doc →
      ∃ w1 doc1,
        setUserRole env w data (some a) = (.ok ⟨true, "User role updated to " ++ r⟩, w1) ∧
        (w1.claims t).map (fun c => JsObject.getOwn c "user_role") = some (.str r) ∧
        w1.doc t = some doc1 ∧
        JsObject.getOwn doc1 "user_role" = .str r ∧
        (r = "admin" ∨ r = "staff" ∨ r = "tenant") ∧
        JsObject.getOwn doc1 "updated_at" = .serverTimestamp ∧
        (∀ k, k ≠ "user_role" → k ≠ "updated_at" →
          JsObject.getOwn doc1 k = JsObject.getOwn doc k ∧
          JsObject.hasOwn doc1 k = JsObject.hasOwn doc k) ∧
        (∀ u, u ≠ t → w1.doc u = w.doc u)) := by
  have hna : notAdmin (some a) = false := by
    simp [notAdmin, AuthData.isAdminToken, hadmin, JsVal.strictEqStr]
  constructor
  · intro hd h
    by_cases h1 : (data.prop "targetUid").truthy = false ∨ (data.prop "newRole").truthy = false
    · refine ⟨"Missing target UID or new role.", ?_⟩
      have : (!(data.prop "targetUid").truthy || !(data.prop "newRole").truthy) = true := by
        rcases h1 with h1 | h1 <;> simp [h1]
      simp [setUserRole, hna, hd, this]
    · refine ⟨"Invalid role specified.", ?_⟩
      have h2 : ∀ r, r ∈ validRoles → data.prop "newRole" ≠ .str r := by
        rcases h with h | h | h
        · exact absurd (Or.inl h) h1
        · exact absurd (Or.inr h) h1
        · exact h
      have h3 : validRolesIncludes (data.prop "newRole") = false := by
        cases hv : validRolesIncludes (data.prop "newRole") with
        | false => rfl
        | true =>
          obtain ⟨r, hr, he⟩ := (validRolesIncludes_iff _).1 hv
          exact absurd he (h2 r hr)
      have h4 : (!(data.prop "targetUid").truthy || !(data.prop "newRole").truthy) = false := by
        simp only [not_or, Bool.not_eq_false] at h1
        simp [h1.1, h1.2]
      simp [setUserRole, hna, hd, h4, h3]
  · intro t r doc hT ht hR hr henv1 henv2 hacc hdoc
    have hTt : (data.prop "targetUid").truthy = true := by simp [hT, JsVal.truthy, ht]
    have hd := prop_destructurable data "targetUid" hTt
    have hrne : r ≠ "" := by
      simp [validRoles] at hr
      rcases hr with h | h | h <;> simp [h]
    have hinc : validRolesIncludes (.str r) = true := (validRolesIncludes_iff _).2 ⟨r, hr, rfl⟩
    obtain ⟨w1, hc1, hcl, -, -, husers, -⟩ :=
      setCustomUserClaims_ok env w t [("user_role", .str r)] henv1 ht hacc
    have hdoc1 : w1.doc t = some doc := by
      rw [doc_of_users w w1 husers]
      exact hdoc
    have hpath := (doc_some w t doc hdoc).1
    obtain ⟨w2, hc2, hd2, hothers, hacc2, -⟩ :=
      docUpdate_doc env w1 t [("user_role", .str r), ("updated_at", .serverTimestamp)] doc
        henv2 hdoc1
    have hcl2 : w2.claims t = some [("user_role", .str r)] := by
      simp only [World.claims, World.account, hacc2] at hcl ⊢
      exact hcl
    refine ⟨w2, mergeFields doc [("user_role", .str r), ("updated_at", .serverTimestamp)],
      ?_, ?_, hd2, ?_, ?_, ?_, ?_, ?_⟩
    · simp [setUserRole, hna, hd, hT, hR, JsVal.truthy, ht, hrne, hinc, setUserRoleTry, hc1,
        docRef_str t hpath, hc2, JsVal.toStr, template2]
    · simp [hcl2, JsObject.getOwn]
    · simp [mergeFields, getOwn_spread, JsObject.hasOwn, JsObject.getOwn]
    · simpa [validRoles] using hr
    · simp [mergeFields, getOwn_spread, JsObject.hasOwn, JsObject.getOwn]
    · intro k hk1 hk2
      have hk1' : ¬ "user_role" = k := fun e => hk1 e.symm
      have hk2' : ¬ "updated_at" = k := fun e => hk2 e.symm
      simp [mergeFields, getOwn_spread, hasOwn_spread, JsObject.hasOwn, hk1', hk2']
    · intro u hu
      rw [hothers u hu]
      exact doc_of_users w w1 husers u

/-- Witness of C10: the admin `"u1"` makes the tenant `"u2"` a member of staff. -/
theorem setUserRole_admin_witness :
    ∃ w1 doc1,
      setUserRole quietEnv sampleWorld
          (.obj [("targetUid", .str "u2"), ("newRole", .str "staff")]) (some adminCaller) =
        (.ok ⟨true, "User role updated to " ++ "staff"⟩, w1) ∧
      (w1.claims "u2").map (fun c => JsObject.getOwn c "user_role") = some (.str "staff") ∧
      w1.doc "u2" = some doc1 ∧
      JsObject.getOwn doc1 "user_role" = .str "staff" ∧
      ("staff" = "admin" ∨ "staff" = "staff" ∨ "staff" = "tenant") ∧
      JsObject.getOwn doc1 "updated_at" = .serverTimestamp ∧
      (∀ k, k ≠ "user_role" → k ≠ "updated_at" →
        JsObject.getOwn doc1 k =
          JsObject.getOwn
            [("id", .str "u2"), ("first_name", .str "Tom"), ("password_hash", .str "N/A"),
              ("user_role", .str "tenant"), ("status", .str "active"),
              ("building_id", .str "b7")] k ∧
        JsObject.hasOwn doc1 k =
          JsObject.hasOwn
            [("id", .str "u2"), ("first_name", .str "Tom"), ("password_hash", .str "N/A"),
              ("user_role", .str "tenant"), ("status", .str "active"),
              ("building_id", .str "b7")] k) ∧
      (∀ u, u ≠ "u2" → w1.doc u = sampleWorld.doc u) :=
  (setUserRole_admin quietEnv sampleWorld
    (.obj [("targetUid", .str "u2"), ("newRole", .str "staff")]) adminCaller (by rfl)).2
    "u2" "staff" _ (by rfl) (by decide) (by rfl) (by decide) (by rfl) (by rfl) (by rfl) (by rfl)

theorem dropWhile_head_not {α : Type} (p : α → Bool) (l : List α) (c : α) (rest : List α)
    (h : l.dropWhile p = c :: rest) : p c = false := by
  induction l with
  | nil => simp at h
  | cons x xs ih =>
    by_cases hx : p x = true
    · rw [List.dropWhile_cons_of_pos hx] at h
      exact ih h
    · rw [List.dropWhile_cons_of_neg hx] at h
      have : x = c := (List.cons.inj h).1
      rw [← this]
      simpa using hx

theorem beforeFirstAt_spec (e : String) :
    '@' ∉ (beforeFirstAt e).toList ∧
    (e = beforeFirstAt e ∨ ∃ rest, e = beforeFirstAt e ++ "@" ++ rest) := by
  constructor
  · intro h
    have := List.mem_takeWhile_imp h
    simp at this
  · cases hd : e.toList.dropWhile (fun c => decide (c ≠ '@')) with
    | nil =>
      left
      apply String.ext
      have := List.takeWhile_append_dropWhile (fun c => decide (c ≠ '@')) e.toList
      rw [hd, List.append_nil] at this
      simp only [beforeFirstAt]
      exact this.symm
    | cons c rest =>
      right
      refine ⟨String.mk rest, ?_⟩
      have hc : c = '@' := by
        have := dropWhile_head_not _ _ _ _ hd
        simpa using this
      apply String.ext
      have := List.takeWhile_append_dropWhile (fun c => decide (c ≠ '@')) e.toList
      rw [hd, hc] at this
      simp only [beforeFirstAt, String.data_append, List.append_assoc]
      exact this.symm

/-- A call of `createUser` that the provider answers with the uid `u`: the account `u`
exists afterwards and the store is kept. -/
theorem createUser_ok (env : Env) (w : World) (email password : JsVal) (dn u : String)
    (henv : env.createUser = .ok u) :
    ∃ w1, authCreateUser env w email password dn = (.ok u, w1) ∧
      (w1.account u).isSome = true ∧ w1.users = w.users := by
  refine ⟨{ w.log (.createUser email password dn) with
      accounts := ⟨u, email, password, dn, []⟩ ::
        (w.log (.createUser email password dn)).accounts.filter
          (fun a => decide (a.uid ≠ u)) }, ?_, ?_, rfl⟩
  · simp only [authCreateUser, henv]
  · simp [World.account]

/-- A call of `set` that is not made to fail: the document `users/u` holds the given
fields afterwards and the provider is kept. -/
theorem docSet_ok (env : Env) (w : World) (u : String) (fields : JsObject)
    (henv : env.docSet = none) :
    ∃ w1, docSet env w u fields = (.ok (), w1) ∧ w1.stored u = some fields ∧
      w1.accounts = w.accounts := by
  refine ⟨{ w.log (.docSet (.str u) fields) with
      users := (u, fields) :: (w.log (.docSet (.str u) fields)).users.filter
        (fun d => decide (d.1 ≠ u)) }, ?_, ?_, rfl⟩
  · simp only [docSet, henv]
  · simp [World.stored]

/-- C6, amended: `createUserWithClaims` called by an authenticated caller with a string
`email`, a truthy `password`, and truthy `firstName`, `lastName`, `userRole` that convert
to text, when the provider answers `createUser` with a uid `u` that is a document path
and no later call fails: it returns `u`; the account `u` carries the claim
`user_role = userRole`; the document `users/u` has `id = u`, `username` the text of
`email` before its first `@`, `email`, `password_hash = "N/A"`, `status = "active"`,
`user_role = userRole`, the names as given, `phone_number` and `department` null, and
`building_id`, `unit_id` the supplied value when it is truthy, null otherwise. -/
theorem create_success (env : Env) (w : World) (data : JsVal) (a : AuthData)
    (e u fn ln rt : String)
    (hemail : data.prop "email" = .str e) (he : e ≠ "")
    (hpw : (data.prop "password").truthy = true)
    (hfn : (data.prop "firstName").truthy = true)
    (hln : (data.prop "lastName").truthy = true)
    (hrole : (data.prop "userRole").truthy = true)
    (hfnText : (data.prop "firstName").toStr = .ok fn)
    (hlnText : (data.prop "lastName").toStr = .ok ln)
    (hroleText : (data.prop "userRole").toStr = .ok rt)
    (hcreate : env.createUser = .ok u) (hu : docPath u = some u)
    (hclaims : env.setCustomUserClaims = none) (hset : env.docSet = none) :
    ∃ w1 doc,
      createUserWithClaims env w data (some a) = (.ok ⟨u, "User created successfully!"⟩, w1) ∧
      w1.claims u = some [("user_role", data.prop "userRole")] ∧
      w1.doc u = some doc ∧
      JsObject.getOwn doc "id" = .str u ∧
      JsObject.getOwn doc "username" = .str (beforeFirstAt e) ∧
      '@' ∉ (beforeFirstAt e).toList ∧
      (e = beforeFirstAt e ∨ ∃ rest, e = beforeFirstAt e ++ "@" ++ rest) ∧
      JsObject.getOwn doc "email" = .str e ∧
      JsObject.getOwn doc "password_hash" = .str "N/A" ∧
      JsObject.getOwn doc "status" = .str "active" ∧
      JsObject.getOwn doc "user_role" = data.prop "userRole" ∧
      JsObject.getOwn doc "first_name" = data.prop "firstName" ∧
      JsObject.getOwn doc "last_name" = data.prop "lastName" ∧
      JsObject.getOwn doc "phone_number" = .null ∧
      JsObject.getOwn doc "department" = .null ∧
      JsObject.getOwn doc "building_id" =
        (if (data.prop "buildingId").truthy then data.prop "buildingId" else .null) ∧
      JsObject.getOwn doc "unit_id" =
        (if (data.prop "unitId").truthy then data.prop "unitId" else .null) := by
  have het : (data.prop "email").truthy = true := by simp [hemail, JsVal.truthy, he]
  have hd := prop_destructurable data "email" het
  have hune := docPath_ne_empty u hu
  have hname : template2 "" (data.prop "firstName") " " (data.prop "lastName") "" =
      .ok (fn ++ " " ++ ln) := by
    simp [template2, hfnText, hlnText]
  obtain ⟨w1, h1, hacc1, -⟩ := createUser_ok env w (data.prop "email") (data.prop "password")
    (fn ++ " " ++ ln) u hcreate
  obtain ⟨w2, h2, hcl2, -, -, -, -⟩ :=
    setCustomUserClaims_ok env w1 u [("user_role", data.prop "userRole")] hclaims hune hacc1
  obtain ⟨w3, h3, hdoc3, hacc3⟩ := docSet_ok env w2 u
    (newUserDoc u (.str (beforeFirstAt e)) (data.prop "email") (data.prop "firstName")
      (data.prop "lastName") (data.prop "userRole") (data.prop "buildingId")
      (data.prop "unitId")) hset
  have hcl3 : w3.claims u = some [("user_role", data.prop "userRole")] := by
    simp only [World.claims, World.account, hacc3] at hcl2 ⊢
    exact hcl2
  have hdoc3' := (doc_eq_stored w3 u hu).trans hdoc3
  obtain ⟨hs1, hs2⟩ := beforeFirstAt_spec e
  refine ⟨w3, _, ?_, hcl3, hdoc3', ?_, ?_, hs1, hs2, ?_, ?_, ?_, ?_, ?_, ?_, ?_, ?_, ?_, ?_⟩
  · have hsplit : splitAtHead (data.prop "email") = .ok (.str (beforeFirstAt e)) := by
      simp [hemail, splitAtHead]
    have hlog : createdLogText (data.prop "email") u (data.prop "userRole") =
        .ok ("User " ++ e ++ " created with UID: " ++ u ++ " and role: " ++ rt) := by
      simp [createdLogText, hemail, JsVal.toStr, hroleText]
    simp [createUserWithClaims, hd, het, hpw, hfn, hln, hrole, createUserTry, hname, h1, h2,
      docRef_str u hu, hsplit, h3, hlog]
  all_goals simp [newUserDoc, JsObject.getOwn, JsVal.or, hemail]

/-- Witness of C6, amended: the email `"a@b.com"` gives the username `"a"`. -/
theorem create_success_witness :
    ∃ w1 doc,
      createUserWithClaims quietEnv sampleWorld newTenantData (some tenantCaller) =
        (.ok ⟨"u9", "User created successfully!"⟩, w1) ∧
      w1.claims "u9" = some [("user_role", .str "tenant")] ∧
      w1.doc "u9" = some doc ∧
      JsObject.getOwn doc "username" = .str "a" ∧
      JsObject.getOwn doc "building_id" = .str "b7" ∧
      JsObject.getOwn doc "unit_id" = .null := by
  obtain ⟨w1, doc, h1, h2, h3, -, h5, -, -, -, -, -, -, -, -, -, -, h16, h17⟩ :=
    create_success quietEnv sampleWorld newTenantData tenantCaller "a@b.com" "u9" "Al" "Bo"
      "tenant"
      (by rfl) (by decide) (by rfl) (by rfl) (by rfl) (by rfl) (by rfl) (by rfl) (by rfl)
      (by rfl) (by rfl) (by rfl) (by rfl)
  exact ⟨w1, doc, h1, h2, h3, h5, h16, h17⟩

/-- Counterexample to C6 as stated: an argument that supplies `buildingId: 0` and
`unitId: ""`. The call succeeds and the record holds `null` for both, not the supplied
values: `buildingId || null` keeps a truthy value only. -/
theorem create_falsy_ids_stored_null :
    ∃ w1 doc,
      createUserWithClaims quietEnv sampleWorld
          (.obj [("email", .str "a@b.com"), ("password", .str "secret9"),
            ("firstName", .str "Al"), ("lastName", .str "Bo"), ("userRole", .str "tenant"),
            ("buildingId", .num 0), ("unitId", .str "")]) (some tenantCaller) =
        (.ok ⟨"u9", "User created successfully!"⟩, w1) ∧
      w1.doc "u9" = some doc ∧
      JsObject.getOwn doc "building_id" = .null ∧
      JsObject.getOwn doc "building_id" ≠ .num 0 ∧
      JsObject.getOwn doc "unit_id" = .null ∧
      JsObject.getOwn doc "unit_id" ≠ .str "" :=
  ⟨_, _, rfl, rfl, rfl, (fun h => by cases h), rfl, (fun h => by cases h)⟩

/-- An argument whose `userRole` is the object `{toString: "x"}`, with collaborators that
fail no call: the account is created and the record is written, then the template literal
of the logged text throws and the call ends with `internal`. -/
theorem create_role_without_text :
    ∃ w1 doc,
      createUserWithClaims quietEnv sampleWorld
          (.obj [("email", .str "a@b.com"), ("password", .str "secret9"),
            ("firstName", .str "Al"), ("lastName", .str "Bo"),
            ("userRole", .obj [("toString", .str "x")])]) (some tenantCaller) =
        (.httpsError ⟨"internal", "Failed to create user.",
          .str "Cannot convert object to primitive value"⟩, w1) ∧
      w1.doc "u9" = some doc ∧
      (w1.account "u9").isSome = true :=
  ⟨_, _, rfl, rfl, rfl⟩

/-- C7 at a failing input: the e-mail already has an account, and the Admin SDK refuses
`createUser` with the code `auth/email-already-exists`. The `catch` block compares the
code with `"auth/email-already-in-use"`, so the call ends with `internal`, not with
`already-exists`. -/
theorem create_existing_email_internal :
    createUserWithClaims emailExistsEnv sampleWorld newTenantData (some tenantCaller) =
      (.httpsError ⟨"internal",
        "Firebase Admin SDK error: auth/email-already-exists - " ++
          "The email address is already in use by another account.", .undefined⟩,
        sampleWorld.log (.createUser (.str "a@b.com") (.str "secret9") "Al Bo")) ∧
    (createUserCatch ⟨.str "auth/email-already-exists",
        .str "The email address is already in use by another account.", .undefined⟩).map
      (fun e => e.code) = .ok "internal" :=
  ⟨rfl, rfl⟩

theorem setCustomUserClaims_users (env : Env) (w : World) (uid : JsVal) (claims : JsObject) :
    (authSetCustomUserClaims env w uid claims).2.users = w.users := by
  unfold authSetCustomUserClaims
  cases env.setCustomUserClaims with
  | some e => rfl
  | none =>
    cases uid.asId with
    | none => rfl
    | some u =>
      simp only
      cases (w.log (.setCustomUserClaims uid claims)).account u <;> rfl

theorem createUser_users (env : Env) (w : World) (email password : JsVal) (dn : String) :
    (authCreateUser env w email password dn).2.users = w.users := by
  unfold authCreateUser
  cases env.createUser <;> rfl

/-- The object returned for a document: no `password_hash`; every other stored field with
its stored value; `id` the stored `id` field, or the document id when there is none; and
no further property. -/
theorem publicUser_fields (d : String × JsObject) :
    JsObject.hasOwn (publicUser d) "password_hash" = false ∧
    (∀ k, k ≠ "password_hash" → JsObject.hasOwn d.2 k = true →
      JsObject.getOwn (publicUser d) k = JsObject.getOwn d.2 k) ∧
    (JsObject.hasOwn d.2 "id" = false → JsObject.getOwn (publicUser d) "id" = .str d.1) ∧
    (∀ k, JsObject.hasOwn (publicUser d) k = true ↔
      k = "id" ∨ (k ≠ "password_hash" ∧ JsObject.hasOwn d.2 k = true)) := by
  refine ⟨?_, ?_, ?_, ?_⟩
  · simp [publicUser, hasOwn_spread, hasOwn_delete, JsObject.hasOwn]
  · intro k hk hown
    simp [publicUser, getOwn_spread, hasOwn_delete, getOwn_delete, hk, hown]
  · intro hown
    simp [publicUser, getOwn_spread, hasOwn_delete, hown, JsObject.getOwn]
  · intro k
    by_cases hid : k = "id"
    · subst hid
      simp [publicUser, hasOwn_spread, JsObject.hasOwn]
    · have : ¬ "id" = k := fun e => hid e.symm
      simp [publicUser, hasOwn_spread, hasOwn_delete, JsObject.hasOwn, hid, this]

/-- C8: `getAllUsers` called by an admin with an argument object asks the store for the
users ordered by `first_name`, filtered on `building_id` when `buildingId` is supplied
(truthy) and on `user_role` when `role` is supplied, with `limit` as given and 100 when it
is `undefined`. When the query does not fail, the returned list has one object per
document of the answer, in the same order; no object has `password_hash`, every other
stored field is returned unchanged, and `count` is the length of the list, so it is within
any bound the answer is within. -/
theorem getAllUsers_admin (env : Env) (w : World) (data : JsVal) (a : AuthData)
    (hadmin : JsObject.getOwn a.token "user_role" = .str "admin")
    (hd : data.destructurable = true) :
    ∃ q : Query,
      q.orderBy = "first_name" ∧
      q.filters =
        (if (data.prop "buildingId").truthy then [("building_id", data.prop "buildingId")]
          else []) ++
        (if (data.prop "role").truthy then [("user_role", data.prop "role")] else []) ∧
      (data.prop "limit" = .undefined → q.limit = .num 100) ∧
      (data.prop "limit" ≠ .undefined → q.limit = data.prop "limit") ∧
      ∀ snapshot, env.queryGet q w.users = .ok snapshot →
        ∃ r : UsersResult,
          getAllUsers env w data (some a) = (.ok r, w.log (.queryGet q)) ∧
          r.users = snapshot.map publicUser ∧
          r.count = r.users.length ∧
          r.users.length = snapshot.length ∧
          (∀ n : Nat, snapshot.length ≤ n → r.count ≤ n) ∧
          (∀ u, u ∈ r.users → JsObject.hasOwn u "password_hash" = false) ∧
          (∀ d, d ∈ snapshot → ∀ k, k ≠ "password_hash" → JsObject.hasOwn d.2 k = true →
            JsObject.getOwn (publicUser d) k = JsObject.getOwn d.2 k) := by
  have hna : notAdmin (some a) = false := by
    simp [notAdmin, AuthData.isAdminToken, hadmin, JsVal.strictEqStr]
  refine ⟨usersQuery (data.prop "buildingId") (data.prop "role")
    (limitOrDefault (data.prop "limit")), rfl, rfl, ?_, ?_, ?_⟩
  · intro h
    simp [usersQuery, h, limitOrDefault]
  · intro h
    simp only [usersQuery]
    cases hl : data.prop "limit" <;> simp_all [limitOrDefault]
  · intro snapshot hq
    refine ⟨⟨snapshot.map publicUser, (snapshot.map publicUser).length⟩, ?_, rfl, rfl, ?_, ?_,
      ?_, ?_⟩
    · simp [getAllUsers, hna, hd, queryGet, hq]
    · simp
    · intro n hn
      simpa using hn
    · intro u hu
      obtain ⟨d, -, rfl⟩ := List.mem_map.1 hu
      exact (publicUser_fields d).1
    · intro d _ k hk hown
      exact (publicUser_fields d).2.1 k hk hown

/-- Witness of C8: the admin `"u1"` lists the users of building `"b7"` without a limit. -/
theorem getAllUsers_admin_witness :
    ∃ q : Query,
      q.orderBy = "first_name" ∧
      q.filters = [("building_id", .str "b7")] ∧
      q.limit = .num 100 ∧
      ∃ r : UsersResult,
        getAllUsers quietEnv sampleWorld (.obj [("buildingId", .str "b7")]) (some adminCaller) =
          (.ok r, sampleWorld.log (.queryGet q)) ∧
        r.count = 1 := by
  obtain ⟨q, h1, h2, h3, -, h5⟩ := getAllUsers_admin quietEnv sampleWorld
    (.obj [("buildingId", .str "b7")]) adminCaller (by rfl) (by rfl)
  have hl : q.limit = .num 100 := h3 (by rfl)
  have hq : quietEnv.queryGet q sampleWorld.users = .ok (sampleWorld.users.drop 1) := by
    simp only [quietEnv, hl, h2]
    rfl
  obtain ⟨r, hr, hu, hc, hlen, -⟩ := h5 _ hq
  refine ⟨q, h1, h2, hl, r, hr, ?_⟩
  rw [hc, hlen]
  rfl

theorem getOwn_foldl_cond (P : String → Bool) (g : String → JsVal) (ks : List String)
    (base : JsObject) (k : String) :
    JsObject.getOwn
        (ks.foldl (fun acc key => if P key then JsObject.set acc key (g key) else acc) base) k =
      if k ∈ ks ∧ P k = true then g k else JsObject.getOwn base k := by
  induction ks generalizing base with
  | nil => simp
  | cons key rest ih =>
    simp only [List.foldl_cons, ih, List.mem_cons]
    by_cases h1 : k ∈ rest ∧ P k = true
    · simp [h1]
    · by_cases h2 : key = k
      · subst h2
        by_cases h3 : P key = true
        · simp [h3, getOwn_set]
        · simp [h3]
      · have h2' : ¬ k = key := fun e => h2 e.symm
        have h4 : ¬ ((k = key ∨ k ∈ rest) ∧ P k = true) := by
          rintro ⟨h | h, hp⟩
          · exact h2' h
          · exact h1 ⟨h, hp⟩
        rw [if_neg h1, if_neg h4]
        by_cases h3 : P key = true
        · simp [h3, getOwn_set, h2]
        · simp [h3]

theorem hasOwn_foldl_cond (P : String → Bool) (g : String → JsVal) (ks : List String)
    (base : JsObject) (k : String) :
    JsObject.hasOwn
        (ks.foldl (fun acc key => if P key then JsObject.set acc key (g key) else acc) base) k =
      (decide (k ∈ ks ∧ P k = true) || JsObject.hasOwn base k) := by
  induction ks generalizing base with
  | nil => simp
  | cons key rest ih =>
    simp only [List.foldl_cons, ih, List.mem_cons]
    by_cases h1 : k ∈ rest ∧ P k = true
    · have : (k = key ∨ k ∈ rest) ∧ P k = true := ⟨Or.inr h1.1, h1.2⟩
      simp [h1, this]
    · by_cases h2 : key = k
      · subst h2
        by_cases h3 : P key = true
        · simp [h3, hasOwn_set]
        · simp [h3]
      · have h2' : ¬ k = key := fun e => h2 e.symm
        have h4 : ¬ ((k = key ∨ k ∈ rest) ∧ P k = true) := by
          rintro ⟨h | h, hp⟩
          · exact h2' h
          · exact h1 ⟨h, hp⟩
        rw [decide_eq_false h1, decide_eq_false h4]
        by_cases h3 : P key = true
        · simp [h3, hasOwn_set, h2]
        · simp [h3]

/-- The object passed to `update`: its properties are the keys of the payload that are
allowed, and `updated_at`; an allowed key carries the payload's value. -/
theorem filteredUpdateData_fields (isAdmin : Bool) (updateData : JsVal) :
    (∀ k, JsObject.hasOwn (filteredUpdateData isAdmin updateData) k = true ↔
      (k ∈ updateData.objectKeys ∧ k ∈ allowedFields isAdmin) ∨ k = "updated_at") ∧
    (∀ k, k ∈ updateData.objectKeys → k ∈ allowedFields isAdmin →
      JsObject.getOwn (filteredUpdateData isAdmin updateData) k = updateData.index k) ∧
    JsObject.getOwn (filteredUpdateData isAdmin updateData) "updated_at" = .serverTimestamp := by
  refine ⟨?_, ?_, ?_⟩
  · intro k
    unfold filteredUpdateData
    rw [hasOwn_set, hasOwn_foldl_cond (fun key => (allowedFields isAdmin).contains key)
      (fun key => updateData.index key)]
    simp [JsObject.hasOwn]
    constructor
    · rintro (h | h)
      · exact Or.inr h.symm
      · exact Or.inl h
    · rintro (h | h)
      · exact Or.inr h
      · exact Or.inl h.symm
  · intro k hk ha
    have hne : ¬ "updated_at" = k := by
      intro e
      subst e
      cases isAdmin <;> simp [allowedFields] at ha
    unfold filteredUpdateData
    rw [getOwn_set, getOwn_foldl_cond (fun key => (allowedFields isAdmin).contains key)
      (fun key => updateData.index key)]
    simp [hne, hk, ha]
  · unfold filteredUpdateData
    rw [getOwn_set]
    simp

theorem setCustomUserClaims_calls (env : Env) (w : World) (uid : JsVal) (claims : JsObject) :
    (authSetCustomUserClaims env w uid claims).2.calls =
      w.calls ++ [.setCustomUserClaims uid claims] := by
  unfold authSetCustomUserClaims
  cases env.setCustomUserClaims with
  | some e => rfl
  | none =>
    cases uid.asId with
    | none => rfl
    | some u =>
      simp only
      cases (w.log (.setCustomUserClaims uid claims)).account u <;> rfl

/-- The calls made by the `try` block of `updateUserProfile` for a target `t`: one
`update` with the filtered object, then at most a claims update, and none for a caller
who is not admin. -/
theorem updateUserProfileTry_calls (env : Env) (w : World) (t : String)
    (hp : docPath t = some t) (updateData : JsVal) (isAdmin : Bool) :
    ∃ rest, (updateUserProfileTry env w (.str t) updateData isAdmin).2.calls =
        w.calls ++ [.docUpdate (.str t) (filteredUpdateData isAdmin updateData)] ++ rest ∧
      (∀ c, c ∈ rest → ∃ claims, c = .setCustomUserClaims (.str t) claims) ∧
      (isAdmin = false → rest = []) := by
  simp only [updateUserProfileTry, docRef_str t hp, docUpdate, profileUpdated, JsVal.toStr]
  cases env.docUpdate with
  | some e => exact ⟨[], by simp [World.log], by simp, fun _ => rfl⟩
  | none =>
    simp only [stored_log]
    cases w.stored t with
    | none => exact ⟨[], by simp [World.log], by simp, fun _ => rfl⟩
    | some doc =>
      simp only
      by_cases hc : ((JsObject.getOwn (filteredUpdateData isAdmin updateData)
          "user_role").truthy && isAdmin) = true
      · rw [if_pos hc]
        refine ⟨[.setCustomUserClaims (.str t)
          [("user_role", JsObject.getOwn (filteredUpdateData isAdmin updateData) "user_role")]],
          ?_, ?_, ?_⟩
        · generalize hw : ({ w.log (.docUpdate (.str t) (filteredUpdateData isAdmin updateData))
            with users := _ } : World) = wu
          have hcalls : wu.calls =
              w.calls ++ [.docUpdate (.str t) (filteredUpdateData isAdmin updateData)] := by
            rw [← hw]; rfl
          have := setCustomUserClaims_calls env wu (.str t)
            [("user_role", JsObject.getOwn (filteredUpdateData isAdmin updateData) "user_role")]
          rw [hcalls] at this
          rw [← this]
          cases authSetCustomUserClaims env wu (.str t)
            [("user_role", JsObject.getOwn (filteredUpdateData isAdmin updateData) "user_role")]
            with
          | mk r w2 => cases r <;> rfl
        · intro c hcm
          exact ⟨_, List.mem_singleton.1 hcm⟩
        · intro hadm
          rw [hadm] at hc
          simp at hc
      · rw [if_neg hc]
        exact ⟨[], by simp [World.log], by simp, fun _ => rfl⟩

/-- The record of the target after the `try` block of `updateUserProfile`, when the
`update` does not fail: the filtered fields are assigned, the others are kept. -/
theorem updateUserProfileTry_doc (env : Env) (w : World) (t : String)
    (updateData : JsVal) (isAdmin : Bool) (doc : JsObject)
    (henv : env.docUpdate = none) (hdoc : w.doc t = some doc) :
    (updateUserProfileTry env w (.str t) updateData isAdmin).2.doc t =
      some (mergeFields doc (filteredUpdateData isAdmin updateData)) := by
  have hp := (doc_some w t doc hdoc).1
  obtain ⟨w1, h1, hd1, -, -, -⟩ :=
    docUpdate_doc env w t (filteredUpdateData isAdmin updateData) doc henv hdoc
  simp only [updateUserProfileTry, docRef_str t hp, h1, profileUpdated, JsVal.toStr]
  by_cases hc : ((JsObject.getOwn (filteredUpdateData isAdmin updateData)
      "user_role").truthy && isAdmin) = true
  · rw [if_pos hc]
    have hu := setCustomUserClaims_users env w1 (.str t)
      [("user_role", JsObject.getOwn (filteredUpdateData isAdmin updateData) "user_role")]
    cases hs : authSetCustomUserClaims env w1 (.str t)
      [("user_role", JsObject.getOwn (filteredUpdateData isAdmin updateData) "user_role")] with
    | mk r w2 =>
      rw [hs] at hu
      have : w2.doc t = w1.doc t := doc_of_users w1 w2 hu t
      cases r <;> simpa [this] using hd1
  · rw [if_neg hc]
    exact hd1

theorem isAdminToken_iff (a : AuthData) :
    a.isAdminToken = true ↔ JsObject.getOwn a.token "user_role" = .str "admin" := by
  simp [AuthData.isAdminToken, strictEqStr_eq_true_iff]

/-- A call of `updateUserProfile` that passes the checks: it ends as its `try` block
does, an error of the block becoming `internal`. -/
theorem updateUserProfile_authorized (env : Env) (w : World) (data : JsVal) (a : AuthData)
    (t : String) (hT : data.prop "targetUid" = .str t) (ht : t ≠ "")
    (hU : (data.prop "updateData").truthy = true)
    (hauth : a.isAdminToken = true ∨ a.uid = t) :
    updateUserProfile env w data (some a) =
      match updateUserProfileTry env w (.str t) (data.prop "updateData") a.isAdminToken with
      | (.ok r, w1) => (.ok r, w1)
      | (.error e, w1) =>
        (.httpsError ⟨"internal", "Failed to update user profile.", e.message⟩, w1) := by
  have hTt : (data.prop "targetUid").truthy = true := by simp [hT, JsVal.truthy, ht]
  have hd := prop_destructurable data "targetUid" hTt
  have hgate : (!a.isAdminToken && !(JsVal.str t).strictEqStr a.uid) = false := by
    rcases hauth with h | h
    · simp [h]
    · simp [JsVal.strictEqStr, h]
  simp only [updateUserProfile, hd, hU]
  rw [hT] at hTt ⊢
  simp [hTt, hgate]

/-- C2: `updateUserProfile` called by an admin or by the target, with a payload, for a
target id that is the path of a document. The `update` of the target's record is the
first call made, and its fields are exactly the payload keys that are in the allowed set,
plus `updated_at`; the allowed set is `first_name`, `last_name`, `phone_number`,
`department`, `building_id`, `unit_id`, and for an admin also `user_role` and `status`; a
kept field carries the payload's value. When the `update` does not fail the record holds
these fields and keeps its others. For a caller who is not admin the fields never include
`user_role` or `status`, the `update` is the only call made (no claims update), and it
succeeds when the `update` does. -/
theorem updateUserProfile_written_fields (env : Env) (w : World) (data : JsVal)
    (a : AuthData) (t : String)
    (hT : data.prop "targetUid" = .str t) (hpath : docPath t = some t)
    (hU : (data.prop "updateData").truthy = true)
    (hauth : JsObject.getOwn a.token "user_role" = .str "admin" ∨ a.uid = t) :
    ∃ written rest,
      (updateUserProfile env w data (some a)).2.calls =
        w.calls ++ [.docUpdate (.str t) written] ++ rest ∧
      (∀ c, c ∈ rest → ∃ claims, c = .setCustomUserClaims (.str t) claims) ∧
      (∀ k, JsObject.hasOwn written k = true ↔
        (k ∈ (data.prop "updateData").objectKeys ∧
          (k ∈ ["first_name", "last_name", "phone_number", "department", "building_id",
              "unit_id"] ∨
            (JsObject.getOwn a.token "user_role" = .str "admin" ∧
              (k = "user_role" ∨ k = "status")))) ∨
        k = "updated_at") ∧
      (∀ k, k ≠ "updated_at" → JsObject.hasOwn written k = true →
        JsObject.getOwn written k = (data.prop "updateData").index k) ∧
      JsObject.getOwn written "updated_at" = .serverTimestamp ∧
      (env.docUpdate = none → ∀ doc, w.doc t = some doc →
        ∃ doc1, (updateUserProfile env w data (some a)).2.doc t = some doc1 ∧
          ∀ k, JsObject.getOwn doc1 k =
            if JsObject.hasOwn written k then JsObject.getOwn written k
            else JsObject.getOwn doc k) ∧
      (JsObject.getOwn a.token "user_role" ≠ .str "admin" →
        JsObject.hasOwn written "user_role" = false ∧
        JsObject.hasOwn written "status" = false ∧
        rest = [] ∧
        (env.docUpdate = none → (w.doc t).isSome = true →
          (updateUserProfile env w data (some a)).1 =
            .ok ⟨true, "Profile updated successfully"⟩)) := by
  have ht := docPath_ne_empty t hpath
  have hauth' : a.isAdminToken = true ∨ a.uid = t :=
    hauth.imp (isAdminToken_iff a).2 id
  have heq := updateUserProfile_authorized env w data a t hT ht hU hauth'
  have hw : (updateUserProfile env w data (some a)).2 =
      (updateUserProfileTry env w (.str t) (data.prop "updateData") a.isAdminToken).2 := by
    rw [heq]
    cases updateUserProfileTry env w (.str t) (data.prop "updateData") a.isAdminToken with
    | mk r w1 => cases r <;> rfl
  obtain ⟨rest, hcalls, hrest, hnone⟩ :=
    updateUserProfileTry_calls env w t hpath (data.prop "updateData") a.isAdminToken
  obtain ⟨hF1, hF2, hF3⟩ := filteredUpdateData_fields a.isAdminToken (data.prop "updateData")
  have hallowed : ∀ k, k ∈ allowedFields a.isAdminToken ↔
      (k ∈ ["first_name", "last_name", "phone_number", "department", "building_id",
          "unit_id"] ∨
        (JsObject.getOwn a.token "user_role" = .str "admin" ∧
          (k = "user_role" ∨ k = "status"))) := by
    intro k
    rw [← isAdminToken_iff]
    cases a.isAdminToken
    · simp [allowedFields]
    · simp only [allowedFields, if_true, List.mem_append, true_and]
      simp
  refine ⟨filteredUpdateData a.isAdminToken (data.prop "updateData"), rest, ?_, hrest, ?_, ?_,
    hF3, ?_, ?_⟩
  · rw [hw]; exact hcalls
  · intro k
    rw [hF1 k, hallowed k]
  · intro k hk hown
    rcases (hF1 k).1 hown with ⟨h1, h2⟩ | h
    · exact hF2 k h1 h2
    · exact absurd h hk
  · intro henv doc hdoc
    refine ⟨mergeFields doc (filteredUpdateData a.isAdminToken (data.prop "updateData")), ?_, ?_⟩
    · rw [hw]
      exact updateUserProfileTry_doc env w t _ _ doc henv hdoc
    · intro k
      simp only [mergeFields, getOwn_spread]
  · intro hna
    have hadm : a.isAdminToken = false := by
      cases h : a.isAdminToken with
      | false => rfl
      | true => exact absurd ((isAdminToken_iff a).1 h) hna
    have hno : ∀ k, (k = "user_role" ∨ k = "status") →
        JsObject.hasOwn (filteredUpdateData a.isAdminToken (data.prop "updateData")) k =
          false := by
      intro k hk
      cases hh : JsObject.hasOwn (filteredUpdateData a.isAdminToken (data.prop "updateData")) k
        with
      | false => rfl
      | true =>
        exfalso
        rcases (hF1 k).1 hh with ⟨-, h2⟩ | h
        · rw [hadm] at h2
          rcases hk with hk | hk <;> subst hk <;> simp [allowedFields] at h2
        · rcases hk with hk | hk <;> subst hk <;> simp at h
    refine ⟨hno _ (Or.inl rfl), hno _ (Or.inr rfl), hnone hadm, ?_⟩
    intro henv hsome
    obtain ⟨doc, hdoc⟩ := Option.isSome_iff_exists.1 hsome
    obtain ⟨w1, h1, -⟩ := docUpdate_doc env w t
      (filteredUpdateData a.isAdminToken (data.prop "updateData")) doc henv hdoc
    rw [heq]
    simp only [updateUserProfileTry, docRef_str t hpath, h1, profileUpdated, JsVal.toStr]
    simp [hadm]

/-- Witness of C2: the tenant `"u2"` sends `{user_role: "admin", first_name: "X"}` for
their own record; only `first_name` and `updated_at` are written, with one call. -/
theorem updateUserProfile_written_fields_witness :
    (updateUserProfile quietEnv sampleWorld
        (.obj [("targetUid", .str "u2"),
          ("updateData", .obj [("user_role", .str "admin"), ("first_name", .str "X")])])
        (some tenantCaller)) =
      (.ok ⟨true, "Profile updated successfully"⟩,
        { accounts := sampleWorld.accounts,
          users :=
            [ ("u1", [("id", .str "u1"), ("first_name", .str "Ada"),
                ("password_hash", .str "N/A"), ("user_role", .str "admin"),
                ("status", .str "active")]),
              ("u2", [("id", .str "u2"), ("first_name", .str "X"),
                ("password_hash", .str "N/A"), ("user_role", .str "tenant"),
                ("status", .str "active"), ("building_id", .str "b7"),
                ("updated_at", .serverTimestamp)]) ],
          calls := [.docUpdate (.str "u2")
            [("first_name", .str "X"), ("updated_at", .serverTimestamp)]] }) ∧
    ∃ written rest,
      (updateUserProfile quietEnv sampleWorld
        (.obj [("targetUid", .str "u2"),
          ("updateData", .obj [("user_role", .str "admin"), ("first_name", .str "X")])])
        (some tenantCaller)).2.calls =
        sampleWorld.calls ++ [.docUpdate (.str "u2") written] ++ rest ∧
      JsObject.hasOwn written "user_role" = false ∧ rest = [] := by
  refine ⟨rfl, ?_⟩
  obtain ⟨written, rest, h1, -, -, -, -, -, h7⟩ :=
    updateUserProfile_written_fields quietEnv sampleWorld
      (.obj [("targetUid", .str "u2"),
        ("updateData", .obj [("user_role", .str "admin"), ("first_name", .str "X")])])
      tenantCaller "u2" (by rfl) (by rfl) (by rfl) (Or.inr rfl)
  obtain ⟨h8, -, h9, -⟩ := h7 (by simp [tenantCaller, JsObject.getOwn])
  exact ⟨written, rest, h1, h8, h9⟩

/-- C3 at a failing input: the admin `"u1"` sends the payload `{user_role: ""}` for `"u2"`
and no collaborator fails. The record write keys on the presence of `user_role`, the
claims update on its truthiness: the call succeeds with the `update` as its only call, the
record's `user_role` becomes `""` and the claim stays `"tenant"`. -/
theorem updateUserProfile_empty_role_not_synced :
    ∃ w1 doc1 claims1,
      updateUserProfile quietEnv sampleWorld
          (.obj [("targetUid", .str "u2"), ("updateData", .obj [("user_role", .str "")])])
          (some adminCaller) =
        (.ok ⟨true, "Profile updated successfully"⟩, w1) ∧
      w1.calls = [.docUpdate (.str "u2")
        [("user_role", .str ""), ("updated_at", .serverTimestamp)]] ∧
      w1.doc "u2" = some doc1 ∧ JsObject.getOwn doc1 "user_role" = .str "" ∧
      w1.claims "u2" = some claims1 ∧ JsObject.getOwn claims1 "user_role" = .str "tenant" ∧
      JsObject.getOwn doc1 "user_role" ≠ JsObject.getOwn claims1 "user_role" :=
  ⟨_, _, _, rfl, rfl, rfl, rfl, rfl, rfl,
    fun h => absurd (JsVal.str.inj (h : JsVal.str "" = JsVal.str "tenant")) (by decide)⟩

/-- The claims update of `updateUserProfile` where it is made: an admin sends a payload
object whose `user_role` is truthy, and no collaborator call fails (none is made to fail,
the target has an account and a record). The call succeeds, the record's `user_role` is
that value, and the target's `user_role` claim is the same value. -/
theorem updateUserProfile_admin_role_synced (env : Env) (w : World) (data : JsVal)
    (a : AuthData) (t : String) (fields doc : JsObject)
    (hadmin : JsObject.getOwn a.token "user_role" = .str "admin")
    (hT : data.prop "targetUid" = .str t) (ht : t ≠ "")
    (hU : data.prop "updateData" = .obj fields)
    (hkey : JsObject.hasOwn fields "user_role" = true)
    (hv : (JsObject.getOwn fields "user_role").truthy = true)
    (henv1 : env.docUpdate = none) (henv2 : env.setCustomUserClaims = none)
    (hacc : (w.account t).isSome = true) (hdoc : w.doc t = some doc) :
    ∃ w1 doc1,
      updateUserProfile env w data (some a) =
        (.ok ⟨true, "Profile updated successfully"⟩, w1) ∧
      w1.doc t = some doc1 ∧
      JsObject.getOwn doc1 "user_role" = JsObject.getOwn fields "user_role" ∧
      (w1.claims t).map (fun c => JsObject.getOwn c "user_role") =
        some (JsObject.getOwn fields "user_role") := by
  have hadm : a.isAdminToken = true := (isAdminToken_iff a).2 hadmin
  have hUt : (data.prop "updateData").truthy = true := by simp [hU, JsVal.truthy]
  have heq := updateUserProfile_authorized env w data a t hT ht hUt (Or.inl hadm)
  obtain ⟨hF1, hF2, -⟩ := filteredUpdateData_fields true (.obj fields)
  have hmem : "user_role" ∈ (JsVal.obj fields).objectKeys := (mem_keys_iff fields _).2 hkey
  have hval : JsObject.getOwn (filteredUpdateData true (.obj fields)) "user_role" =
      JsObject.getOwn fields "user_role" := by
    rw [hF2 _ hmem (by simp [allowedFields])]
    rfl
  have hown : JsObject.hasOwn (filteredUpdateData true (.obj fields)) "user_role" = true :=
    (hF1 _).2 (Or.inl ⟨hmem, by simp [allowedFields]⟩)
  have hpath := (doc_some w t doc hdoc).1
  obtain ⟨w1, h1, hd1, -, hacc1, -⟩ :=
    docUpdate_doc env w t (filteredUpdateData true (.obj fields)) doc henv1 hdoc
  have hacc1' : (w1.account t).isSome = true := by
    simp only [World.account, hacc1]
    exact hacc
  obtain ⟨w2, h2, hcl2, -, -, husers2, -⟩ :=
    setCustomUserClaims_ok env w1 t [("user_role", JsObject.getOwn fields "user_role")] henv2 ht
      hacc1'
  refine ⟨w2, mergeFields doc (filteredUpdateData true (.obj fields)), ?_, ?_, ?_, ?_⟩
  · rw [heq, hadm, hU]
    simp only [updateUserProfileTry, docRef_str t hpath, h1, hval, hv, Bool.and_self,
      if_true, h2, profileUpdated, JsVal.toStr]
  · rw [doc_of_users w1 w2 husers2]
    exact hd1
  · simp only [mergeFields, getOwn_spread, hown, if_true, hval]
  · simp [hcl2, JsObject.getOwn]

/-- The example of the specification: the admin `"u1"` sends `{user_role: "staff"}` for
`"u2"`. -/
theorem updateUserProfile_admin_role_synced_witness :
    ∃ w1 doc1,
      updateUserProfile quietEnv sampleWorld
          (.obj [("targetUid", .str "u2"), ("updateData", .obj [("user_role", .str "staff")])])
          (some adminCaller) =
        (.ok ⟨true, "Profile updated successfully"⟩, w1) ∧
      w1.doc "u2" = some doc1 ∧
      JsObject.getOwn doc1 "user_role" = .str "staff" ∧
      (w1.claims "u2").map (fun c => JsObject.getOwn c "user_role") = some (.str "staff") :=
  updateUserProfile_admin_role_synced quietEnv sampleWorld
    (.obj [("targetUid", .str "u2"), ("updateData", .obj [("user_role", .str "staff")])])
    adminCaller "u2" [("user_role", .str "staff")] _
    (by rfl) (by rfl) (by decide) (by rfl) (by rfl) (by rfl) (by rfl) (by rfl) (by rfl) (by rfl)

/-- The example of the specification: three admins, two members of staff and a suspended
tenant. -/
theorem getUserStatistics_six_users :
    getUserStatistics quietEnv sixUsersWorld .null (some adminCaller) =
      (.ok { total := 6,
             byRole := [("admin", .num 3), ("staff", .num 2), ("tenant", .num 1)],
             byStatus := [("active", .num 5), ("suspended", .num 1)],
             byBuilding := [] },
        sixUsersWorld.log .collectionGet) := by
  rfl

/-- C9 at a failing input: the store holds one record, whose `user_role` is
`"constructor"` and whose `building_id` is `"valueOf"`. The reads
`stats.byRole["constructor"]` and `stats.byBuilding["valueOf"]` return the functions
inherited from `Object.prototype`, which are truthy, so `+ 1` appends to their text: each
entry is a string, not the count 1. -/
theorem getUserStatistics_inherited_key :
    ∃ stats w1,
      getUserStatistics quietEnv constructorRoleWorld .null (some adminCaller) =
        (.ok stats, w1) ∧
      stats.total = 1 ∧
      JsObject.get stats.byRole "constructor" =
        .str "function Object() \x7b [native code] \x7d1" ∧
      JsObject.get stats.byRole "constructor" ≠ .num 1 ∧
      JsObject.get stats.byBuilding "valueOf" =
        .str "function valueOf() \x7b [native code] \x7d1" ∧
      JsObject.get stats.byBuilding "valueOf" ≠ .num 1 :=
  ⟨_, _, rfl, rfl, rfl, (fun h => by cases h), rfl, (fun h => by cases h)⟩

theorem addOne_ofNat (m : Nat) : (JsInt.ofInt (m : Int)).addOne = JsInt.ofInt ((m + 1 : Nat) : Int) := by
  unfold JsInt.addOne JsInt.ofInt
  by_cases h1 : (m : Int).natAbs ≤ 9007199254740992
  · simp only [h1, dif_pos]
    by_cases h2 : ((m : Int) + 1).natAbs ≤ 9007199254740992
    · have h3 : (((m + 1 : Nat) : Int)).natAbs ≤ 9007199254740992 := by
        simpa using h2
      simp only [h2, h3, dif_pos]
      congr 1
    · have h3 : ¬ (((m + 1 : Nat) : Int)).natAbs ≤ 9007199254740992 := by
        simpa using h2
      have h4 : ¬ ((m : Int) + 1 < 0) := by omega
      have h5 : ¬ (((m + 1 : Nat) : Int) < 0) := by omega
      simp only [h2, h3, dif_neg, h4, h5, if_false, not_false_eq_true]
  · have h3 : ¬ (((m + 1 : Nat) : Int)).natAbs ≤ 9007199254740992 := by
      simp only [Int.natAbs_ofNat] at h1 ⊢
      omega
    have h4 : ¬ ((m : Int) < 0) := by omega
    have h5 : ¬ (((m + 1 : Nat) : Int) < 0) := by omega
    simp only [h1, h3, dif_neg, h4, h5, if_false, not_false_eq_true]
    have h6 : ((9007199254740992 : Int) + 1).natAbs ≤ 9007199254740992 ↔ False := by
      constructor
      · intro h; omega
      · intro h; exact h.elim
    have h7 : ¬ ((9007199254740992 : Int) + 1 < 0) := by omega
    simp only [h6, dif_neg, h7, if_false, not_false_eq_true]

theorem ofInt_val_eq_zero (m : Nat) : (JsInt.ofInt (m : Int)).val = 0 ↔ m = 0 := by
  unfold JsInt.ofInt
  by_cases h1 : (m : Int).natAbs ≤ 9007199254740992
  · simp only [h1, dif_pos]
    omega
  · have h4 : ¬ ((m : Int) < 0) := by omega
    simp only [h1, dif_neg, h4, if_false, not_false_eq_true]
    simp only [Int.natAbs_ofNat] at h1
    omega

theorem getOwn_of_not_hasOwn (o : JsObject) (k : String) (h : JsObject.hasOwn o k = false) :
    JsObject.getOwn o k = .undefined := by
  induction o with
  | nil => rfl
  | cons p rest ih =>
    obtain ⟨k0, v0⟩ := p
    by_cases h0 : k0 = k
    · simp [JsObject.hasOwn, h0] at h
    · simp only [JsObject.hasOwn, h0, if_false] at h
      simp only [JsObject.getOwn, h0, if_false]
      exact ih h

theorem increment_same (bucket : JsObject) (v : JsVal) (k : String) (m : Nat)
    (hv : v.toStr = .ok k)
    (hr : JsObject.hasOwn objectPrototype k = false)
    (h : HoldsCount bucket k m) :
    ∃ next, increment bucket v = .ok next ∧ HoldsCount next k (m + 1) := by
  have hne : k ≠ "__proto__" := by
    intro e
    rw [e] at hr
    simp [objectPrototype, JsObject.hasOwn] at hr
  have hval : orZeroPlusOne (JsObject.get bucket k) =
      .ok (.num (JsInt.ofInt ((m + 1 : Nat) : Int))) := by
    rcases h with ⟨h1, h2⟩ | ⟨h1, h2⟩
    · simp only [JsObject.get, h1, if_true, h2]
      by_cases hz : m = 0
      · subst hz
        have : (JsInt.ofInt ((0 : Nat) : Int)).val = 0 := (ofInt_val_eq_zero 0).2 rfl
        simp only [orZeroPlusOne, JsVal.truthy, this]
        rfl
      · have : (JsInt.ofInt (m : Int)).val ≠ 0 := fun e => hz ((ofInt_val_eq_zero m).1 e)
        simp only [orZeroPlusOne, JsVal.truthy, this, ne_eq, not_false_eq_true, decide_True,
          Bool.not_true, if_false, addOne_ofNat]
        rfl
    · subst h2
      simp only [JsObject.get, h1, getOwn_of_not_hasOwn objectPrototype k hr, orZeroPlusOne,
        JsVal.truthy]
      rfl
  refine ⟨JsObject.put bucket k (.num (JsInt.ofInt ((m + 1 : Nat) : Int))), ?_, ?_⟩
  · simp only [increment, hv, hval]
  · left
    unfold JsObject.put
    rw [if_neg hne, hasOwn_set, getOwn_set]
    simp

theorem increment_other (bucket next : JsObject) (v : JsVal) (k r : String) (m : Nat)
    (hv : v.toStr = .ok k) (hne : k ≠ r) (h : HoldsCount bucket r m)
    (hinc : increment bucket v = .ok next) : HoldsCount next r m := by
  simp only [increment, hv] at hinc
  cases ho : orZeroPlusOne (JsObject.get bucket k) with
  | error e => simp [ho] at hinc
  | ok n =>
    simp only [ho, Except.ok.injEq] at hinc
    subst hinc
    unfold JsObject.put
    by_cases hp : k = "__proto__"
    · rw [if_pos hp]; exact h
    · rw [if_neg hp]
      unfold HoldsCount
      rw [hasOwn_set, getOwn_set]
      simpa [hne] using h

theorem increment_keeps (bucket next : JsObject) (v : JsVal) (r : String)
    (h : JsObject.hasOwn bucket r = true) (hinc : increment bucket v = .ok next) :
    JsObject.hasOwn next r = true := by
  unfold increment at hinc
  cases hv : v.toStr with
  | error e => simp [hv] at hinc
  | ok k =>
    simp only [hv] at hinc
    cases ho : orZeroPlusOne (JsObject.get bucket k) with
    | error e => simp [ho] at hinc
    | ok n =>
      simp only [ho, Except.ok.injEq] at hinc
      subst hinc
      unfold JsObject.put
      split
      · exact h
      · rw [hasOwn_set]; simp [h]

/-- The loop over a snapshot counts in a bucket, at every key that is not a property of
`Object.prototype`, the documents whose field converts to that key. -/
theorem bucketLoop_counts (field r : String)
    (hr : JsObject.hasOwn objectPrototype r = false)
    (snapshot : List (String × JsObject)) (bucket final : JsObject) (m : Nat)
    (h : HoldsCount bucket r m) (hloop : bucketLoop field snapshot bucket = .ok final) :
    HoldsCount final r (m + countKey snapshot field r) := by
  induction snapshot generalizing bucket m with
  | nil =>
    simp only [bucketLoop, Except.ok.injEq] at hloop
    subst hloop
    simpa [countKey] using h
  | cons d rest ih =>
    simp only [bucketLoop] at hloop
    cases hc : countField bucket d.2 field with
    | error e => simp [hc] at hloop
    | ok next =>
      simp only [hc] at hloop
      unfold countField at hc
      by_cases ht : (JsObject.getOwn d.2 field).truthy = true
      · rw [if_pos ht] at hc
        cases hv : (JsObject.getOwn d.2 field).toStr with
        | error e => simp [increment, hv] at hc
        | ok k =>
          by_cases hk : k = r
          · subst hk
            obtain ⟨n2, hn2, hh⟩ := increment_same bucket _ k m hv hr h
            rw [hn2, Except.ok.injEq] at hc
            subst hc
            have := ih _ _ hh hloop
            have hcnt : countKey (d :: rest) field k = countKey rest field k + 1 := by
              simp [countKey, List.filter_cons, ht, convertsTo, hv]
            rw [hcnt]
            have he : m + (countKey rest field k + 1) = m + 1 + countKey rest field k := by
              omega
            rw [he]
            exact this
          · have hh := increment_other bucket next _ k r m hv hk h hc
            have := ih _ _ hh hloop
            have hcnt : countKey (d :: rest) field r = countKey rest field r := by
              simp [countKey, List.filter_cons, ht, convertsTo, hv, hk]
            rw [hcnt]
            exact this
      · rw [if_neg ht, Except.ok.injEq] at hc
        subst hc
        have := ih _ _ h hloop
        have hcnt : countKey (d :: rest) field r = countKey rest field r := by
          simp [countKey, List.filter_cons, ht]
        rw [hcnt]
        exact this

theorem bucketLoop_keeps (field r : String) (snapshot : List (String × JsObject))
    (bucket final : JsObject) (h : JsObject.hasOwn bucket r = true)
    (hloop : bucketLoop field snapshot bucket = .ok final) :
    JsObject.hasOwn final r = true := by
  induction snapshot generalizing bucket with
  | nil =>
    simp only [bucketLoop, Except.ok.injEq] at hloop
    subst hloop
    exact h
  | cons d rest ih =>
    simp only [bucketLoop] at hloop
    cases hc : countField bucket d.2 field with
    | error e => simp [hc] at hloop
    | ok next =>
      simp only [hc] at hloop
      apply ih next _ hloop
      unfold countField at hc
      split at hc
      · exact increment_keeps bucket next _ r h hc
      · rw [Except.ok.injEq] at hc
        subst hc
        exact h

/-- The loop over a snapshot, bucket by bucket. -/
theorem statsLoop_buckets (snapshot : List (String × JsObject)) (s final : Stats)
    (h : statsLoop snapshot s = .ok final) :
    final.total = s.total + snapshot.length ∧
    bucketLoop "user_role" snapshot s.byRole = .ok final.byRole ∧
    bucketLoop "status" snapshot s.byStatus = .ok final.byStatus ∧
    bucketLoop "building_id" snapshot s.byBuilding = .ok final.byBuilding := by
  induction snapshot generalizing s with
  | nil =>
    simp only [statsLoop, Except.ok.injEq] at h
    subst h
    simp [bucketLoop]
  | cons d rest ih =>
    simp only [statsLoop] at h
    cases hs : statsStep s d.2 with
    | error e => simp [hs] at h
    | ok next =>
      simp only [hs] at h
      obtain ⟨h1, h2, h3, h4⟩ := ih next h
      unfold statsStep at hs
      cases hr : countField s.byRole d.2 "user_role" with
      | error e => simp [hr] at hs
      | ok b1 =>
        cases hst : countField s.byStatus d.2 "status" with
        | error e => simp [hr, hst] at hs
        | ok b2 =>
          cases hb : countField s.byBuilding d.2 "building_id" with
          | error e => simp [hr, hst, hb] at hs
          | ok b3 =>
            simp only [hr, hst, hb, Except.ok.injEq] at hs
            subst hs
            simp only [bucketLoop, hr, hst, hb, List.length_cons]
            refine ⟨?_, h2, h3, h4⟩
            simp only at h1
            omega

/-- What `getUserStatistics` computes when no conversion to text throws: `total` is the
number of documents, and at every key that is not a property of `Object.prototype` each
bucket holds the number of documents whose field converts to that key; the keys `admin`,
`staff`, `tenant`, `active` and `suspended` are always present. -/
theorem computeStats_counts (snapshot : List (String × JsObject)) (stats : Stats)
    (hstats : computeStats snapshot = .ok stats) :
    stats.total = snapshot.length ∧
    (∀ r, JsObject.hasOwn objectPrototype r = false →
      HoldsCount stats.byRole r (countKey snapshot "user_role" r) ∧
      HoldsCount stats.byStatus r (countKey snapshot "status" r) ∧
      HoldsCount stats.byBuilding r (countKey snapshot "building_id" r)) ∧
    (∀ r, r ∈ ["admin", "staff", "tenant"] →
      JsObject.getOwn stats.byRole r = .num (JsInt.ofInt (countKey snapshot "user_role" r))) ∧
    (∀ r, r ∈ ["active", "suspended"] →
      JsObject.getOwn stats.byStatus r =
        .num (JsInt.ofInt (countKey snapshot "status" r))) := by
  obtain ⟨ht, hR0, hS0, hB0⟩ := statsLoop_buckets snapshot initialStats stats hstats
  have hrole : ∀ r, HoldsCount initialStats.byRole r 0 := by
    intro r
    by_cases h : JsObject.hasOwn initialStats.byRole r = true
    · left
      refine ⟨h, ?_⟩
      simp only [initialStats, JsObject.hasOwn, JsObject.getOwn] at h ⊢
      split_ifs at h ⊢ <;> rfl
    · right
      exact ⟨by simpa using h, rfl⟩
  have hstatus : ∀ r, HoldsCount initialStats.byStatus r 0 := by
    intro r
    by_cases h : JsObject.hasOwn initialStats.byStatus r = true
    · left
      refine ⟨h, ?_⟩
      simp only [initialStats, JsObject.hasOwn, JsObject.getOwn] at h ⊢
      split_ifs at h ⊢ <;> rfl
    · right
      exact ⟨by simpa using h, rfl⟩
  have hbuilding : ∀ r, HoldsCount initialStats.byBuilding r 0 := by
    intro r
    right
    exact ⟨rfl, rfl⟩
  have hR := fun r hr => bucketLoop_counts "user_role" r hr snapshot _ _ 0 (hrole r) hR0
  have hS := fun r hr => bucketLoop_counts "status" r hr snapshot _ _ 0 (hstatus r) hS0
  have hB := fun r hr => bucketLoop_counts "building_id" r hr snapshot _ _ 0 (hbuilding r) hB0
  simp only [Nat.zero_add] at hR hS hB
  refine ⟨by simpa [initialStats] using ht, fun r hr => ⟨hR r hr, hS r hr, hB r hr⟩, ?_, ?_⟩
  · intro r hr
    have hp : JsObject.hasOwn objectPrototype r = false := by
      simp at hr
      rcases hr with h | h | h <;> subst h <;> rfl
    have hk : JsObject.hasOwn initialStats.byRole r = true := by
      simp at hr
      rcases hr with h | h | h <;> subst h <;> rfl
    rcases hR r hp with ⟨-, h⟩ | ⟨h, -⟩
    · exact h
    · rw [bucketLoop_keeps "user_role" r snapshot _ _ hk hR0] at h
      exact absurd h (by simp)
  · intro r hr
    have hp : JsObject.hasOwn objectPrototype r = false := by
      simp at hr
      rcases hr with h | h <;> subst h <;> rfl
    have hk : JsObject.hasOwn initialStats.byStatus r = true := by
      simp at hr
      rcases hr with h | h <;> subst h <;> rfl
    rcases hS r hp with ⟨-, h⟩ | ⟨h, -⟩
    · exact h
    · rw [bucketLoop_keeps "status" r snapshot _ _ hk hS0] at h
      exact absurd h (by simp)

end FacilityFix
